import Mathlib

/-!
Shallow embedding of the operational Lambda handlers of the
aws-ecs-infrastructure-cdk repository, together with proofs about the
behaviour its specification claims.

The embedding translates the TypeScript sources:
  * lib/functions/shared/jp-holidays.ts        (holiday calendar)
  * lib/functions/ecs-business-hours/index.ts  (ECS scheduler)
  * lib/functions/ec2-business-hours/index.ts  (EC2 scheduler)
  * lib/functions/rds-business-hours/index.ts  (RDS scheduler)
  * lib/functions/logs-firehose-transform/index.ts (log transform)
  * lib/functions/db-init/index.ts             (DB user bootstrap)
  * lib/functions/ecr-validate-single-arch/index.ts (image guard)
  * the rdsDbName naming helper

External collaborators (AWS SDK clients, the MySQL driver, JSON.parse of
incoming text, gzip) are modelled as oracles passed to the handlers; the
handlers' own control flow, string handling and serialisation are
translated directly.  Handlers return the list of provider calls they
issued together with their result, so that "issues zero start calls" and
similar claims are statements about the returned trace.
-/

/-- JavaScript `s || d` for strings: the empty string is falsy. -/
def jsOrStr (s d : String) : String := if s = "" then d else s

/-- JavaScript `o || d` where `o` is a possibly-undefined string. -/
def jsOrOptStr (o : Option String) (d : String) : String :=
  match o with
  | some s => jsOrStr s d
  | none => d

/-- JavaScript truthiness of a possibly-undefined string
(`undefined` and `""` are falsy). -/
def jsTruthyOptStr (o : Option String) : Bool :=
  match o with
  | some s => s ≠ ""
  | none => false

/-! ## Civil calendar (proleptic Gregorian, days since 1970-01-01)

The handlers work on the civil date in JST produced by
`toLocaleString('en-US', { timeZone: 'Asia/Tokyo' })`; the embedding takes
that civil date as input.  The day-of-week computation mirrors what
JavaScript's `Date.getDay` returns for a valid civil date. -/

structure CivilDate where
  year : Nat
  month : Nat
  day : Nat
deriving DecidableEq, Repr

def isLeapYear (y : Nat) : Bool :=
  y % 4 == 0 && (y % 100 != 0 || y % 400 == 0)

def daysInMonth (y m : Nat) : Nat :=
  if m == 2 then (if isLeapYear y then 29 else 28)
  else if m == 4 || m == 6 || m == 9 || m == 11 then 30
  else 31

def daysInYear (y : Nat) : Nat := if isLeapYear y then 366 else 365

def daysBeforeYear (y : Nat) : Nat :=
  (List.range (y - 1970)).foldl (fun acc i => acc + daysInYear (1970 + i)) 0

def daysBeforeMonth (y m : Nat) : Nat :=
  (List.range (m - 1)).foldl (fun acc i => acc + daysInMonth y (1 + i)) 0

/-- Days elapsed since 1970-01-01 (for dates from 1970 on). -/
def daysSinceEpoch (d : CivilDate) : Nat :=
  daysBeforeYear d.year + daysBeforeMonth d.year d.month + (d.day - 1)

/-- Day of week as JavaScript `Date.getDay`: 0 = Sunday, …, 6 = Saturday.
1970-01-01 was a Thursday (= 4). -/
def dayOfWeek (d : CivilDate) : Nat := (daysSinceEpoch d + 4) % 7

/-! ## jp-holidays.ts -/

/-- The static holiday table of `jp-holidays.ts` (keys `YYYY-MM-DD`,
transcribed as civil dates). -/
def japanHolidays : List CivilDate := [
  ⟨2024, 1, 1⟩, ⟨2024, 1, 8⟩, ⟨2024, 2, 11⟩, ⟨2024, 2, 12⟩, ⟨2024, 2, 23⟩,
  ⟨2024, 3, 20⟩, ⟨2024, 4, 29⟩, ⟨2024, 5, 3⟩, ⟨2024, 5, 4⟩, ⟨2024, 5, 5⟩,
  ⟨2024, 5, 6⟩, ⟨2024, 7, 15⟩, ⟨2024, 8, 11⟩, ⟨2024, 8, 12⟩, ⟨2024, 9, 16⟩,
  ⟨2024, 9, 22⟩, ⟨2024, 9, 23⟩, ⟨2024, 10, 14⟩, ⟨2024, 11, 3⟩, ⟨2024, 11, 4⟩,
  ⟨2024, 11, 23⟩,
  ⟨2025, 1, 1⟩, ⟨2025, 1, 13⟩, ⟨2025, 2, 11⟩, ⟨2025, 2, 23⟩, ⟨2025, 2, 24⟩,
  ⟨2025, 3, 20⟩, ⟨2025, 4, 29⟩, ⟨2025, 5, 3⟩, ⟨2025, 5, 4⟩, ⟨2025, 5, 5⟩,
  ⟨2025, 5, 6⟩, ⟨2025, 7, 21⟩, ⟨2025, 8, 11⟩, ⟨2025, 9, 15⟩, ⟨2025, 9, 23⟩,
  ⟨2025, 10, 13⟩, ⟨2025, 11, 3⟩, ⟨2025, 11, 23⟩, ⟨2025, 11, 24⟩,
  ⟨2026, 1, 1⟩, ⟨2026, 1, 12⟩, ⟨2026, 2, 11⟩, ⟨2026, 2, 23⟩, ⟨2026, 3, 20⟩,
  ⟨2026, 4, 29⟩, ⟨2026, 5, 3⟩, ⟨2026, 5, 4⟩, ⟨2026, 5, 5⟩, ⟨2026, 7, 20⟩,
  ⟨2026, 8, 11⟩, ⟨2026, 9, 21⟩, ⟨2026, 9, 22⟩, ⟨2026, 9, 23⟩, ⟨2026, 10, 12⟩,
  ⟨2026, 11, 3⟩, ⟨2026, 11, 23⟩]

/-- `isJapanHolidayJst` of `jp-holidays.ts`, taking the already-converted
JST civil date: weekends count as holidays, otherwise the static table
decides. -/
def isJapanHolidayJst (d : CivilDate) : Bool :=
  let dow := dayOfWeek d
  if dow == 0 || dow == 6 then true
  else japanHolidays.contains d

/-! ## Scheduler handlers

Each handler is embedded as a function from its configuration, a provider
oracle, the current JST civil date and the event's action string to the
pair (list of provider calls issued, handler outcome).  The outcome is
`Except String r`: `Except.error` models an exception escaping the
handler, `Except.ok` a returned result object. -/

/-- The result objects the scheduler handlers return:
`{ skipped: true }`, `{ ok: true }` or `{ ok: false }`. -/
inductive SchedulerResult where
  | skippedTrue
  | okTrue
  | okFalse
deriving DecidableEq, Repr

/-- First failure of a list of provider outcomes, mirroring the rejection
behaviour of `Promise.all` over the issued calls. -/
def exceptAll : List (Except String Unit) → Except String Unit
  | [] => Except.ok ()
  | Except.ok () :: rest => exceptAll rest
  | Except.error e :: _ => Except.error e

namespace EcsBusinessHours

inductive EcsAction where
  | updateService (cluster service : String) (desiredCount : Nat)
deriving DecidableEq, Repr

structure Config where
  clusterName : String
  frontendServiceName : String
  backendServiceName : String
  jobServiceName : String
  desiredUpCount : Nat

/-- Outcome of each `UpdateServiceCommand` send. -/
structure Provider where
  updateOutcome : EcsAction → Except String Unit

/-- `handler` of `ecs-business-hours/index.ts`. -/
def handler (cfg : Config) (p : Provider) (today : CivilDate) (action : String) :
    List EcsAction × Except String SchedulerResult :=
  let isHoliday := isJapanHolidayJst today
  if action = "up" then
    if isHoliday then ([], Except.ok SchedulerResult.skippedTrue)
    else
      let calls := [
        EcsAction.updateService cfg.clusterName cfg.frontendServiceName cfg.desiredUpCount,
        EcsAction.updateService cfg.clusterName cfg.backendServiceName cfg.desiredUpCount,
        EcsAction.updateService cfg.clusterName cfg.jobServiceName cfg.desiredUpCount]
      (calls, (exceptAll (calls.map p.updateOutcome)).map fun _ => SchedulerResult.okTrue)
  else if action = "down" then
    let calls := [
      EcsAction.updateService cfg.clusterName cfg.frontendServiceName 0,
      EcsAction.updateService cfg.clusterName cfg.backendServiceName 0,
      EcsAction.updateService cfg.clusterName cfg.jobServiceName 0]
    (calls, (exceptAll (calls.map p.updateOutcome)).map fun _ => SchedulerResult.okTrue)
  else ([], Except.ok SchedulerResult.okFalse)

end EcsBusinessHours

namespace Ec2BusinessHours

inductive Ec2Action where
  | describeInstances (instanceId : String)
  | startInstances (instanceId : String)
  | stopInstances (instanceId : String)
  | changeRecordSets (recordName ip : String)
deriving DecidableEq, Repr

/-- `Reservations?.[0]?.Instances?.[0]` as seen by the handler. -/
structure Ec2View where
  stateName : Option String
  publicIpAddress : Option String

structure Config where
  instanceId : String
  hostedZoneId : String
  recordName : String

/-- Provider oracle: `describe n` is the result of the `n`-th
`DescribeInstancesCommand` of this invocation (`none` when the
reservation/instance is absent), the outcomes model whether the
corresponding send throws. -/
structure Provider where
  describe : Nat → Option Ec2View
  startOutcome : Except String Unit
  stopOutcome : Except String Unit
  dnsOutcome : String → Except String Unit

/-- The bounded wait-for-public-IP loop (`maxAttempts = 20`) of the start
branch: polls `DescribeInstances`, and on the first truthy IP upserts the
Route53 record and stops.  Running out of attempts is not an error. -/
def dnsLoop (cfg : Config) (p : Provider) (callIdx : Nat) :
    Nat → List Ec2Action × Except String Unit
  | 0 => ([], Except.ok ())
  | fuel + 1 =>
    match (p.describe callIdx).bind (fun v => v.publicIpAddress) with
    | some ip =>
      if ip = "" then
        let rest := dnsLoop cfg p (callIdx + 1) fuel
        (Ec2Action.describeInstances cfg.instanceId :: rest.1, rest.2)
      else
        ([Ec2Action.describeInstances cfg.instanceId,
          Ec2Action.changeRecordSets cfg.recordName ip],
         (p.dnsOutcome ip).map fun _ => ())
    | none =>
      let rest := dnsLoop cfg p (callIdx + 1) fuel
      (Ec2Action.describeInstances cfg.instanceId :: rest.1, rest.2)

/-- `handler` of `ec2-business-hours/index.ts`.  The try/catch around
`StartInstances` and `StopInstances` swallows the provider outcome, so
those outcomes do not influence the result; the Route53 send is not
guarded and its failure escapes. -/
def handler (cfg : Config) (p : Provider) (today : CivilDate) (action : String) :
    List Ec2Action × Except String SchedulerResult :=
  let isHoliday := isJapanHolidayJst today
  if action = "start" then
    let state0 := (p.describe 0).bind (fun v => v.stateName)
    let isRunning := state0 = some "running"
    let isPending := state0 = some "pending"
    let skipStartDueToHoliday := isHoliday && !isRunning && !isPending
    let startTrace :=
      if !skipStartDueToHoliday && !isRunning && !isPending then
        [Ec2Action.startInstances cfg.instanceId]
      else []
    let dns :=
      if cfg.hostedZoneId ≠ "" ∧ cfg.recordName ≠ "" then
        if skipStartDueToHoliday && !isRunning && !isPending then ([], Except.ok ())
        else dnsLoop cfg p 1 20
      else ([], Except.ok ())
    (Ec2Action.describeInstances cfg.instanceId :: startTrace ++ dns.1,
     dns.2.map fun _ =>
       if skipStartDueToHoliday && !isRunning && !isPending then SchedulerResult.skippedTrue
       else SchedulerResult.okTrue)
  else if action = "stop" then
    match p.stopOutcome with
    | Except.ok _ => ([Ec2Action.stopInstances cfg.instanceId], Except.ok SchedulerResult.okTrue)
    | Except.error _ => ([Ec2Action.stopInstances cfg.instanceId], Except.ok SchedulerResult.okTrue)
  else ([], Except.ok SchedulerResult.okFalse)

end Ec2BusinessHours

namespace RdsBusinessHours

inductive RdsAction where
  | startDBInstance (id : String)
  | stopDBInstance (id : String)
deriving DecidableEq, Repr

structure Provider where
  startOutcome : Except String Unit
  stopOutcome : Except String Unit

/-- `handler` of `rds-business-hours/index.ts`.  Neither branch guards the
send, so a provider error escapes the handler. -/
def handler (dbInstanceIdentifier : String) (p : Provider) (today : CivilDate)
    (action : String) : List RdsAction × Except String SchedulerResult :=
  let isHoliday := isJapanHolidayJst today
  if action = "start" then
    if isHoliday then ([], Except.ok SchedulerResult.skippedTrue)
    else ([RdsAction.startDBInstance dbInstanceIdentifier],
          p.startOutcome.map fun _ => SchedulerResult.okTrue)
  else if action = "stop" then
    ([RdsAction.stopDBInstance dbInstanceIdentifier],
     p.stopOutcome.map fun _ => SchedulerResult.okTrue)
  else ([], Except.ok SchedulerResult.okFalse)

end RdsBusinessHours

/-! ## JSON values

A model of the JSON values flowing through the log transform.  Numbers are
modelled as integers (no claim exercises fractional numbers).  The mutual
presentation keeps every recursive function structurally recursive, hence
kernel-evaluable. -/

mutual
inductive Json where
  | null : Json
  | bool (b : Bool) : Json
  | num (n : Int) : Json
  | str (s : String) : Json
  | arr (elems : JsonArr) : Json
  | obj (fields : JsonObj) : Json
inductive JsonArr where
  | nil : JsonArr
  | cons (hd : Json) (tl : JsonArr) : JsonArr
inductive JsonObj where
  | nil : JsonObj
  | cons (key : String) (val : Json) (tl : JsonObj) : JsonObj
end

/-- JSON string escaping as `JSON.stringify` performs it: quote, backslash
and control characters are escaped, everything else is copied. -/
def jsonEscapeChar (c : Char) : String :=
  if c = '"' then "\\\""
  else if c = '\\' then "\\\\"
  else if c = '\n' then "\\n"
  else if c = '\r' then "\\r"
  else if c = '\t' then "\\t"
  else if c = '\x08' then "\\b"
  else if c = '\x0c' then "\\f"
  else if c.toNat < 32 then
    "\\u00" ++ String.mk [Nat.digitChar (c.toNat / 16), Nat.digitChar (c.toNat % 16)]
  else String.mk [c]

def jsonEscape (s : String) : String :=
  "\"" ++ String.join (s.toList.map jsonEscapeChar) ++ "\""

mutual
/-- `JSON.stringify` on the modelled values. -/
def Json.stringify : Json → String
  | Json.null => "null"
  | Json.bool true => "true"
  | Json.bool false => "false"
  | Json.num n => toString n
  | Json.str s => jsonEscape s
  | Json.arr es => "[" ++ JsonArr.stringifyElems es ++ "]"
  | Json.obj fs => "\x7b" ++ JsonObj.stringifyFields fs ++ "\x7d"
def JsonArr.stringifyElems : JsonArr → String
  | JsonArr.nil => ""
  | JsonArr.cons hd JsonArr.nil => Json.stringify hd
  | JsonArr.cons hd (JsonArr.cons hd2 tl) =>
    Json.stringify hd ++ "," ++ JsonArr.stringifyElems (JsonArr.cons hd2 tl)
def JsonObj.stringifyFields : JsonObj → String
  | JsonObj.nil => ""
  | JsonObj.cons k v JsonObj.nil => jsonEscape k ++ ":" ++ Json.stringify v
  | JsonObj.cons k v (JsonObj.cons k2 v2 tl) =>
    jsonEscape k ++ ":" ++ Json.stringify v ++ "," ++
      JsonObj.stringifyFields (JsonObj.cons k2 v2 tl)
end

/-- First-occurrence lookup in a JSON object, as JavaScript property
access reads it. -/
def lookupField : JsonObj → String → Option Json
  | JsonObj.nil, _ => none
  | JsonObj.cons k' v rest, k => if k' = k then some v else lookupField rest k

/-- JavaScript property assignment on an object literal: an existing key
keeps its position and gets the new value, a new key is appended. -/
def setField : JsonObj → String → Json → JsonObj
  | JsonObj.nil, k, v => JsonObj.cons k v JsonObj.nil
  | JsonObj.cons k' v' rest, k, v =>
    if k' = k then JsonObj.cons k' v rest
    else JsonObj.cons k' v' (setField rest k v)

/-- Index-keyed fields produced by spreading a JavaScript array into an
object literal (`{...[a, b]}` has keys `"0"`, `"1"`, …). -/
def arrFields (i : Nat) : JsonArr → JsonObj
  | JsonArr.nil => JsonObj.nil
  | JsonArr.cons hd tl => JsonObj.cons (toString i) hd (arrFields (i + 1) tl)

/-- Own enumerable properties contributed by `{...structured}`. -/
def spreadFields : Json → JsonObj
  | Json.obj fs => fs
  | Json.arr es => arrFields 0 es
  | _ => JsonObj.nil

/-- JavaScript truthiness of a parsed JSON value (`NaN` cannot arise from
`JSON.parse`). -/
def jsTruthy : Json → Bool
  | Json.null => false
  | Json.bool b => b
  | Json.num n => n ≠ 0
  | Json.str s => s ≠ ""
  | Json.arr _ => true
  | Json.obj _ => true

/-- `typeof v === 'object'` for a parsed JSON value: objects, arrays and
`null`. -/
def jsTypeofObject : Json → Bool
  | Json.obj _ => true
  | Json.arr _ => true
  | Json.null => true
  | _ => false

/-! ## UTF-8 and base64 -/

/-- UTF-8 encoding of one scalar value, as a list of byte values. -/
def utf8EncodeCharNat (c : Char) : List Nat :=
  let n := c.toNat
  if n < 128 then [n]
  else if n < 2048 then [192 + n / 64, 128 + n % 64]
  else if n < 65536 then [224 + n / 4096, 128 + n / 64 % 64, 128 + n % 64]
  else [240 + n / 262144, 128 + n / 4096 % 64, 128 + n / 64 % 64, 128 + n % 64]

/-- The UTF-8 bytes of a string (what `Buffer.from(text, 'utf-8')`
holds). -/
def utf8Bytes (s : String) : List Nat :=
  s.toList.flatMap utf8EncodeCharNat

def b64Alphabet : List Char :=
  "ABCDEFGHIJKLMNOPQRSTUVWXYZabcdefghijklmnopqrstuvwxyz0123456789+/".toList

def b64Char (n : Nat) : Char := b64Alphabet.getD n '?'

/-- Standard base64 of a byte list, three bytes at a time, with `=`
padding. -/
def encodeChunks : List Nat → List Char
  | [] => []
  | [a] => [b64Char (a / 4), b64Char (a % 4 * 16), '=', '=']
  | [a, b] => [b64Char (a / 4), b64Char (a % 4 * 16 + b / 16), b64Char (b % 16 * 4), '=']
  | a :: b :: c :: rest =>
    b64Char (a / 4) :: b64Char (a % 4 * 16 + b / 16) ::
      b64Char (b % 16 * 4 + c / 64) :: b64Char (c % 64) :: encodeChunks rest

def encodeB64 (bytes : List Nat) : String := String.mk (encodeChunks bytes)

/-- Index of a character in the base64 alphabet. -/
def decodeB64Char (c : Char) : Option Nat :=
  let i := b64Alphabet.findIdx (fun x => x = c)
  if i < 64 then some i else none

/-- Inverse of `encodeChunks` on well-formed base64 text. -/
def decodeChunks : List Char → Option (List Nat)
  | [] => some []
  | c1 :: c2 :: c3 :: c4 :: rest =>
    (decodeB64Char c1).bind fun n1 =>
    (decodeB64Char c2).bind fun n2 =>
    if c3 = '=' then
      if c4 = '=' ∧ rest = [] ∧ n2 % 16 = 0 then some [n1 * 4 + n2 / 16] else none
    else
      (decodeB64Char c3).bind fun n3 =>
      if c4 = '=' then
        if rest = [] ∧ n3 % 4 = 0 then some [n1 * 4 + n2 / 16, n2 % 16 * 16 + n3 / 4]
        else none
      else
        (decodeB64Char c4).bind fun n4 =>
        (decodeChunks rest).map fun ds =>
          (n1 * 4 + n2 / 16) :: (n2 % 16 * 16 + n3 / 4) :: (n3 % 4 * 64 + n4) :: ds
  | _ => none

def decodeB64 (s : String) : Option (List Nat) := decodeChunks s.toList

/-! ## `Date.prototype.toISOString` -/

def pad2 (n : Nat) : String := if n < 10 then "0" ++ toString n else toString n

def pad3 (n : Nat) : String :=
  if n < 10 then "00" ++ toString n
  else if n < 100 then "0" ++ toString n
  else toString n

def pad4 (n : Nat) : String :=
  if n < 10 then "000" ++ toString n
  else if n < 100 then "00" ++ toString n
  else if n < 1000 then "0" ++ toString n
  else toString n

/-- Peel whole years off a day count, starting at 1970.  The fuel is an
upper bound on the number of iterations; passing the day count itself is
always enough. -/
def yearLoop : Nat → Nat → Nat → Nat × Nat
  | 0, y, d => (y, d)
  | fuel + 1, y, d =>
    if daysInYear y ≤ d then yearLoop fuel (y + 1) (d - daysInYear y) else (y, d)

/-- Peel whole months off the remaining day count. -/
def monthLoop : Nat → Nat → Nat → Nat → Nat × Nat
  | 0, _, m, d => (m, d)
  | fuel + 1, y, m, d =>
    if daysInMonth y m ≤ d then monthLoop fuel y (m + 1) (d - daysInMonth y m) else (m, d)

/-- Civil UTC date of a day count since 1970-01-01. -/
def civilFromDays (days : Nat) : CivilDate :=
  let yd := yearLoop days 1970 days
  let md := monthLoop 12 yd.1 1 yd.2
  ⟨yd.1, md.1, md.2 + 1⟩

/-- `new Date(ms).toISOString()` for a nonnegative epoch-millisecond
timestamp. -/
def toISOString (ms : Nat) : String :=
  let days := ms / 86400000
  let msOfDay := ms % 86400000
  let date := civilFromDays days
  pad4 date.year ++ "-" ++ pad2 date.month ++ "-" ++ pad2 date.day ++ "T" ++
    pad2 (msOfDay / 3600000) ++ ":" ++ pad2 (msOfDay % 3600000 / 60000) ++ ":" ++
    pad2 (msOfDay % 60000 / 1000) ++ "." ++ pad3 (msOfDay % 1000) ++ "Z"

/-! ## logs-firehose-transform/index.ts -/

/-- The character class `String.prototype.trim` removes (ASCII whitespace,
NBSP, BOM, the Unicode space separators and the line separators). -/
def jsWhitespaceChar (c : Char) : Bool :=
  c = ' ' || c = '\t' || c = '\n' || c = '\r' || c = '\x0b' || c = '\x0c' ||
  c = '\u0085' || c = '\u00A0' || c = '\u1680' ||
  ('\u2000' ≤ c && c ≤ '\u200A') ||
  c = '\u2028' || c = '\u2029' || c = '\u202F' || c = '\u205F' ||
  c = '\u3000' || c = '\uFEFF'

/-- `String.prototype.trim`. -/
def jsTrim (s : String) : String :=
  String.mk ((((s.toList.dropWhile jsWhitespaceChar).reverse.dropWhile
    jsWhitespaceChar).reverse))

namespace LogsFirehoseTransform

structure FirehoseTransformationEventRecord where
  recordId : String
  approximateArrivalTimestamp : Nat
  data : String
deriving DecidableEq, Repr

structure FirehoseTransformationEvent where
  invocationId : String
  deliveryStreamArn : String
  region : String
  records : List FirehoseTransformationEventRecord
deriving DecidableEq, Repr

inductive FirehoseRecordResult where
  | ok
  | dropped
  | processingFailed
deriving DecidableEq, Repr

structure FirehoseTransformationResultRecord where
  recordId : String
  result : FirehoseRecordResult
  data : String
deriving DecidableEq, Repr

structure FirehoseTransformationResult where
  records : List FirehoseTransformationResultRecord
deriving DecidableEq, Repr

structure LogEvent where
  id : String
  timestamp : Nat
  message : String
deriving DecidableEq, Repr

structure CloudWatchLogsFirehosePayload where
  messageType : String
  owner : String
  logGroup : String
  logStream : String
  subscriptionFilters : List String
  logEvents : List LogEvent
deriving DecidableEq, Repr

/-- Oracle for the external decoding steps: `decodePayload` is
base64-decode, gunzip and `JSON.parse` of the outer envelope (`none`
models any exception on that path), `parseJson` is `JSON.parse` of one
trimmed log line (`none` models a parse error). -/
structure Codec where
  decodePayload : String → Option CloudWatchLogsFirehosePayload
  parseJson : String → Option Json

/-- `encodeRecords`: newline-join the serialised objects, add a trailing
newline, UTF-8-encode and base64-encode. -/
def encodeRecords (values : List JsonObj) : String :=
  let text :=
    String.intercalate "\n" (values.map fun v => Json.stringify (Json.obj v)) ++ "\n"
  encodeB64 (utf8Bytes text)

/-- `buildErrorRecord`: keep the incoming data, tag the outcome. -/
def buildErrorRecord (record : FirehoseTransformationEventRecord)
    (result : FirehoseRecordResult) : FirehoseTransformationResultRecord :=
  { recordId := record.recordId, result := result, data := record.data }

/-- The enrichment spread
`{ ...structured, log_group, log_stream, ingestion_time_iso }`. -/
def enrich (parsed : CloudWatchLogsFirehosePayload) (logEvent : LogEvent)
    (fields : JsonObj) : JsonObj :=
  setField
    (setField
      (setField fields "log_group" (Json.str parsed.logGroup))
      "log_stream" (Json.str parsed.logStream))
    "ingestion_time_iso" (Json.str (toISOString logEvent.timestamp))

/-- The per-event filtering and enrichment loop of `processRecord`:
trim, drop empty, `JSON.parse`, drop values that are falsy or not of
`typeof 'object'`, spread and enrich the survivors. -/
def enrichedMessages (c : Codec) (parsed : CloudWatchLogsFirehosePayload) :
    List JsonObj :=
  parsed.logEvents.filterMap fun logEvent =>
    let rawMessage := jsTrim logEvent.message
    if rawMessage = "" then none
    else
      match c.parseJson rawMessage with
      | none => none
      | some structured =>
        if !jsTruthy structured then none
        else if !jsTypeofObject structured then none
        else some (enrich parsed logEvent (spreadFields structured))

/-- `processRecord` of `logs-firehose-transform/index.ts`. -/
def processRecord (c : Codec) (record : FirehoseTransformationEventRecord) :
    List FirehoseTransformationResultRecord :=
  match c.decodePayload record.data with
  | none => [buildErrorRecord record FirehoseRecordResult.processingFailed]
  | some parsed =>
    if parsed.messageType ≠ "DATA_MESSAGE" then
      [buildErrorRecord record FirehoseRecordResult.dropped]
    else
      let msgs := enrichedMessages c parsed
      if msgs.isEmpty then [buildErrorRecord record FirehoseRecordResult.dropped]
      else
        [{ recordId := record.recordId, result := FirehoseRecordResult.ok,
           data := encodeRecords msgs }]

/-- `handler` of `logs-firehose-transform/index.ts`: concatenate the
per-record results in input order. -/
def handler (c : Codec) (event : FirehoseTransformationEvent) :
    FirehoseTransformationResult :=
  { records := event.records.flatMap (processRecord c) }

end LogsFirehoseTransform

/-! ## db-init/index.ts -/

namespace DbInit

/-- The SQL statements `ensureUser` issues, by shape. -/
inductive SqlStmt where
  | createUserIfNotExists (user pass : String)
  | alterUserPassword (user pass : String)
  | grantAllOn (db user : String)
  | revokeDropOn (db user : String)
  | grantSelectOn (db user : String)
  | flushPrivileges
deriving DecidableEq, Repr

/-- `ensureUser` of `db-init/index.ts` as the statement sequence it runs:
create-if-absent, unconditional password reset, then either
`GRANT ALL` followed by `REVOKE DROP` (application tier) or
`GRANT SELECT` (read-only tier), then `FLUSH PRIVILEGES`. -/
def ensureUser (user pass dbName : String) (isApp : Bool) : List SqlStmt :=
  [SqlStmt.createUserIfNotExists user pass, SqlStmt.alterUserPassword user pass] ++
  (if isApp then
    [SqlStmt.grantAllOn dbName user, SqlStmt.revokeDropOn dbName user]
  else
    [SqlStmt.grantSelectOn dbName user]) ++
  [SqlStmt.flushPrivileges]

structure SecretJson where
  username : Option String
  password : Option String
deriving Repr

structure Env where
  dbHost : Option String
  dbPort : Option String
  dbName : Option String
  masterSecretArn : Option String
  appuserSecretArn : Option String
  readonlySecretArn : Option String

structure Event where
  requestType : Option String
  physicalResourceId : Option String

/-- The fallback identity computed on the Delete path:
`DB_HOST && DB_NAME ? host:name : 'db-init'`. -/
def fallbackId (env : Env) : String :=
  if jsTruthyOptStr env.dbHost ∧ jsTruthyOptStr env.dbName then
    (env.dbHost.getD "") ++ ":" ++ (env.dbName.getD "")
  else "db-init"

/-- A secret value is usable when both fields are present and truthy. -/
def secretComplete (s : SecretJson) : Bool :=
  jsTruthyOptStr s.username && jsTruthyOptStr s.password

/-- `handler` of `db-init/index.ts`.  `secrets` models
`GetSecretValue` + `JSON.parse`, `connectOk` whether `connectWithRetry`
eventually obtained a connection (its internal 12-attempt loop either
yields a connection or throws the last error).  The returned trace lists
the SQL statements executed. -/
def handler (env : Env) (secrets : String → SecretJson) (connectOk : Bool)
    (event : Event) : Except String (String × List SqlStmt) :=
  let reqType := jsOrOptStr event.requestType "Create"
  if reqType = "Delete" then
    Except.ok (jsOrOptStr event.physicalResourceId (fallbackId env), [])
  else
    if !(jsTruthyOptStr env.dbHost && jsTruthyOptStr env.dbPort &&
         jsTruthyOptStr env.dbName && jsTruthyOptStr env.masterSecretArn &&
         jsTruthyOptStr env.appuserSecretArn && jsTruthyOptStr env.readonlySecretArn) then
      Except.error "Missing required environment variables"
    else
      let master := secrets (env.masterSecretArn.getD "")
      let appuser := secrets (env.appuserSecretArn.getD "")
      let readonly := secrets (env.readonlySecretArn.getD "")
      if !secretComplete master then Except.error "Master secret missing username/password"
      else if !secretComplete appuser then
        Except.error "AppUser secret missing username/password"
      else if !secretComplete readonly then
        Except.error "ReadOnlyUser secret missing username/password"
      else if !connectOk then Except.error "connectWithRetry exhausted"
      else
        let dbName := env.dbName.getD ""
        Except.ok ((env.dbHost.getD "") ++ ":" ++ dbName,
          ensureUser (appuser.username.getD "") (appuser.password.getD "") dbName true ++
          ensureUser (readonly.username.getD "") (readonly.password.getD "") dbName false)

/-- A representative set of MySQL static privileges; `GRANT ALL` confers
all of them. -/
inductive Privilege where
  | select
  | insert
  | updatePriv
  | deletePriv
  | create
  | drop
  | alter
  | indexPriv
deriving DecidableEq, Repr

def allPrivileges : List Privilege :=
  [Privilege.select, Privilege.insert, Privilege.updatePriv, Privilege.deletePriv,
   Privilege.create, Privilege.drop, Privilege.alter, Privilege.indexPriv]

/-- Account state on the one database: password and granted privileges. -/
structure AccountState where
  password : String
  privileges : List Privilege
deriving Repr

/-- Database state: the known accounts, as an association list. -/
abbrev DbState := List (String × AccountState)

def getAccount : DbState → String → Option AccountState
  | [], _ => none
  | e :: rest, u => if e.1 = u then some e.2 else getAccount rest u

def mapAccount : DbState → String → (AccountState → AccountState) → DbState
  | [], _, _ => []
  | e :: rest, u, f => (if e.1 = u then (e.1, f e.2) else e) :: mapAccount rest u f

/-- Effect of one statement on the database state: `CREATE USER IF NOT
EXISTS` only creates absent accounts (with no privileges), `ALTER USER`
resets the password, grants add privileges, `REVOKE DROP` removes the
`DROP` privilege, `FLUSH PRIVILEGES` is a no-op on this abstraction. -/
def applyStmt (st : DbState) : SqlStmt → DbState
  | SqlStmt.createUserIfNotExists u p =>
    match getAccount st u with
    | some _ => st
    | none => st ++ [(u, { password := p, privileges := [] })]
  | SqlStmt.alterUserPassword u p =>
    mapAccount st u fun a => { a with password := p }
  | SqlStmt.grantAllOn _ u =>
    mapAccount st u fun a => { a with privileges := allPrivileges ++ a.privileges }
  | SqlStmt.revokeDropOn _ u =>
    mapAccount st u fun a =>
      { a with privileges := a.privileges.filter fun pr => pr ≠ Privilege.drop }
  | SqlStmt.grantSelectOn _ u =>
    mapAccount st u fun a => { a with privileges := Privilege.select :: a.privileges }
  | SqlStmt.flushPrivileges => st

def runStmts (st : DbState) (stmts : List SqlStmt) : DbState :=
  stmts.foldl applyStmt st

/-- Privileges currently held by an account (empty when absent). -/
def privsOf (st : DbState) (u : String) : List Privilege :=
  match getAccount st u with
  | some a => a.privileges
  | none => []

end DbInit

/-! ## ecr-validate-single-arch/index.ts -/

namespace EcrValidateSingleArch

structure ResourceProperties where
  repositoryName : String
  imageTag : String
  resourceVersion : Option String

structure Event where
  requestType : String
  resourceProperties : ResourceProperties

/-- `imageDetails?.[0]` of the `DescribeImages` response. -/
structure ImageDetail where
  artifactMediaType : Option String
  imageManifestMediaType : Option String

/-- Does `pat` occur at the head of `l`? -/
def patAtHead : List Char → List Char → Bool
  | [], _ => true
  | _ :: _, [] => false
  | p :: ps, c :: cs => p = c && patAtHead ps cs

/-- Does `pat` occur anywhere in `l`? -/
def hasPat : List Char → List Char → Bool
  | l, pat =>
    match l with
    | [] => pat.isEmpty
    | _ :: cs => patAtHead pat l || hasPat cs pat

/-- Substring containment, as `String.prototype.includes`. -/
def strIncludes (s pat : String) : Bool := hasPat s.toList pat.toList

/-- `isIndex` of the handler: a truthy media type mentioning
`manifest.list` or `image.index`. -/
def isIndex (v : Option String) : Bool :=
  match v with
  | some s => s ≠ "" && (strIncludes s "manifest.list" || strIncludes s "image.index")
  | none => false

/-- `${artifactType || manifestType}` in the failure message (an
undefined value interpolates as the text `undefined`). -/
def mediaTypeText (artifactType manifestType : Option String) : String :=
  match (if jsTruthyOptStr artifactType then artifactType else manifestType) with
  | some s => s
  | none => "undefined"

/-- `handler` of `ecr-validate-single-arch/index.ts`.  `lookupResult`
models `DescribeImages().imageDetails?.[0]`. -/
def handler (lookupResult : Option ImageDetail) (event : Event) :
    Except String String :=
  if event.requestType = "Delete" then Except.ok "ecr-validate-single-arch"
  else
    let repo := event.resourceProperties.repositoryName
    let tag := jsOrStr event.resourceProperties.imageTag "latest"
    match lookupResult with
    | none =>
      Except.error ("ECR tag not found: " ++ repo ++ ":" ++ tag ++
        ". Push the image before deploy.")
    | some details =>
      if isIndex details.artifactMediaType || isIndex details.imageManifestMediaType then
        Except.error ("Repository '" ++ repo ++ "' tag '" ++ tag ++
          "' is a multi-arch Image Index (" ++
          mediaTypeText details.artifactMediaType details.imageManifestMediaType ++
          "). Please push a single-arch (linux/amd64) image.")
      else Except.ok "ecr-validate-single-arch"

end EcrValidateSingleArch

/-! ## rdsDbName -/

/-- Characters the cleaned database name may contain. -/
def isDbNameChar (c : Char) : Bool :=
  ('a' ≤ c && c ≤ 'z') || ('0' ≤ c && c ≤ '9') || c = '_'

/-- Collapse runs of underscores to one (`replace(/_+/g, '_')`), tracking
whether the previous kept character was an underscore. -/
def collapseUnderscores : Bool → List Char → List Char
  | _, [] => []
  | prevU, c :: rest =>
    if c = '_' then
      if prevU then collapseUnderscores true rest
      else '_' :: collapseUnderscores true rest
    else c :: collapseUnderscores false rest

/-- `replace(/^_+|_+$/g, '')`. -/
def trimUnderscores (l : List Char) : List Char :=
  ((l.dropWhile fun c => c = '_').reverse.dropWhile fun c => c = '_').reverse

/-- The `if (!/^[a-z]/.test(cleaned)) cleaned = 'db_' + cleaned` step:
prepend `db_` when the name does not start with a lowercase letter. -/
def ensureLeadingLetter (l : List Char) : List Char :=
  match l with
  | c :: _ => if 'a' ≤ c && c ≤ 'z' then l else 'd' :: 'b' :: '_' :: l
  | [] => 'd' :: 'b' :: '_' :: []

/-- `rdsDbName` of the naming helper: lowercase
`{project}_db_{environment}`, replace characters outside `[a-z0-9_]` by
`_`, collapse underscore runs, prepend `db_` when the name does not start
with a letter, strip outer underscores, truncate to 64.
(`Char.toLower` agrees with `toLowerCase` on ASCII; the properties proved
below do not depend on the lowercase mapping.) -/
def rdsDbName (project environment : String) : String :=
  String.mk ((trimUnderscores (ensureLeadingLetter (collapseUnderscores false
    (((project ++ "_db_" ++ environment).toList.map Char.toLower).map
      fun c => if isDbNameChar c then c else '_')))).take 64)

/-! ## Helper lemmas: base64 and UTF-8 -/

theorem decodeB64Char_b64Char (n : Nat) (h : n < 64) : decodeB64Char (b64Char n) = some n := by
  have aux : ∀ m : Fin 64, decodeB64Char (b64Char m.val) = some m.val := by decide
  exact aux ⟨n, h⟩

theorem b64Char_ne_pad (n : Nat) (h : n < 64) : b64Char n ≠ '=' := by
  have aux : ∀ m : Fin 64, b64Char m.val ≠ '=' := by decide
  exact aux ⟨n, h⟩

theorem decodeChunks_encodeChunks : ∀ bs : List Nat, (∀ x ∈ bs, x < 256) →
    decodeChunks (encodeChunks bs) = some bs
  | [] => fun _ => rfl
  | [a] => fun h => by
    have ha : a < 256 := h a (by simp)
    simp only [encodeChunks, decodeChunks]
    rw [decodeB64Char_b64Char _ (by omega), decodeB64Char_b64Char _ (by omega)]
    simp only [Option.some_bind, if_pos rfl]
    have h16 : a % 4 * 16 % 16 = 0 := by omega
    simp [h16]
    omega
  | [a, b] => fun h => by
    have ha : a < 256 := h a (by simp)
    have hb : b < 256 := h b (by simp)
    simp only [encodeChunks, decodeChunks]
    rw [decodeB64Char_b64Char _ (by omega), decodeB64Char_b64Char _ (by omega)]
    simp only [Option.some_bind]
    rw [if_neg (b64Char_ne_pad _ (by omega))]
    rw [decodeB64Char_b64Char _ (by omega)]
    simp only [Option.some_bind, if_pos rfl]
    have h4 : b % 16 * 4 % 4 = 0 := by omega
    simp [h4]
    omega
  | a :: b :: c :: rest => fun h => by
    have ha : a < 256 := h a (by simp)
    have hb : b < 256 := h b (by simp)
    have hc : c < 256 := h c (by simp)
    have ih := decodeChunks_encodeChunks rest (fun x hx => h x (by simp [hx]))
    simp only [encodeChunks, decodeChunks]
    rw [decodeB64Char_b64Char _ (by omega), decodeB64Char_b64Char _ (by omega)]
    simp only [Option.some_bind]
    rw [if_neg (b64Char_ne_pad _ (by omega))]
    rw [decodeB64Char_b64Char _ (by omega)]
    simp only [Option.some_bind]
    rw [if_neg (b64Char_ne_pad _ (by omega))]
    rw [decodeB64Char_b64Char _ (by omega)]
    simp only [Option.some_bind]
    rw [ih]
    have e1 : a / 4 * 4 + (a % 4 * 16 + b / 16) / 16 = a := by omega
    have e2 : (a % 4 * 16 + b / 16) % 16 * 16 + (b % 16 * 4 + c / 64) / 4 = b := by omega
    have e3 : (b % 16 * 4 + c / 64) % 4 * 64 + c % 64 = c := by omega
    simp [e1, e2, e3]

theorem char_toNat_lt (c : Char) : c.toNat < 1114112 := by
  rcases c.valid with h | ⟨h1, h2⟩
  · exact Nat.lt_trans h (by norm_num)
  · exact h2

theorem utf8EncodeCharNat_lt (c : Char) : ∀ b ∈ utf8EncodeCharNat c, b < 256 := by
  have hc := char_toNat_lt c
  intro b hb
  unfold utf8EncodeCharNat at hb
  simp only at hb
  split at hb <;> [skip; split at hb] <;> [skip; skip; split at hb] <;>
    simp at hb <;> omega

theorem utf8Bytes_lt (s : String) : ∀ b ∈ utf8Bytes s, b < 256 := by
  intro b hb
  simp only [utf8Bytes, List.mem_flatMap] at hb
  obtain ⟨c, _, hbc⟩ := hb
  exact utf8EncodeCharNat_lt c b hbc

theorem decodeB64_encodeB64 (bs : List Nat) (h : ∀ x ∈ bs, x < 256) :
    decodeB64 (encodeB64 bs) = some bs := by
  unfold decodeB64 encodeB64
  rw [show (String.mk (encodeChunks bs)).toList = encodeChunks bs from rfl]
  exact decodeChunks_encodeChunks bs h

theorem decodeB64_utf8 (s : String) : decodeB64 (encodeB64 (utf8Bytes s)) = some (utf8Bytes s) :=
  decodeB64_encodeB64 _ (utf8Bytes_lt s)

/-! ## Helper lemmas: traces and JSON objects -/

namespace Ec2BusinessHours

theorem startInstances_not_mem_dnsLoop (cfg : Config) (p : Provider) (id : String) :
    ∀ fuel i, Ec2Action.startInstances id ∉ (dnsLoop cfg p i fuel).1 := by
  intro fuel
  induction fuel with
  | zero => intro i; simp [dnsLoop]
  | succ n ih =>
    intro i
    simp only [dnsLoop]
    cases h : (p.describe i).bind (fun v => v.publicIpAddress) with
    | none =>
      simp only [List.mem_cons, not_or]
      refine ⟨by simp, ?_⟩
      exact ih (i + 1)
    | some ip =>
      by_cases hip : ip = ""
      · simp only [if_pos hip, List.mem_cons, not_or]
        refine ⟨by simp, ?_⟩
        exact ih (i + 1)
      · simp [if_neg hip]

end Ec2BusinessHours

theorem lookupField_setField_same : ∀ (fs : JsonObj) (k : String) (v : Json),
    lookupField (setField fs k v) k = some v
  | JsonObj.nil, k, v => by simp [setField, lookupField]
  | JsonObj.cons k' v' rest, k, v => by
    by_cases h : k' = k
    · subst h; simp [setField, lookupField]
    · simp [setField, lookupField, h, lookupField_setField_same rest k v]

theorem lookupField_setField_ne : ∀ (fs : JsonObj) (k k' : String) (v : Json),
    k' ≠ k → lookupField (setField fs k v) k' = lookupField fs k'
  | JsonObj.nil, k, k', v => fun h => by
    simp [setField, lookupField, Ne.symm h]
  | JsonObj.cons k0 v0 rest, k, k', v => fun h => by
    by_cases h0 : k0 = k
    · subst h0
      simp [setField, lookupField, Ne.symm h]
    · simp [setField, lookupField, h0, lookupField_setField_ne rest k k' v h]

namespace LogsFirehoseTransform

theorem processRecord_shape (c : Codec) (r : FirehoseTransformationEventRecord) :
    ∃ res data, processRecord c r = [⟨r.recordId, res, data⟩] := by
  unfold processRecord
  cases c.decodePayload r.data with
  | none => exact ⟨_, _, rfl⟩
  | some parsed =>
    by_cases h : parsed.messageType ≠ "DATA_MESSAGE"
    · simp only [if_pos h]; exact ⟨_, _, rfl⟩
    · simp only [if_neg h]
      by_cases h2 : (enrichedMessages c parsed).isEmpty
      · simp only [if_pos h2]; exact ⟨_, _, rfl⟩
      · simp only [if_neg h2]; exact ⟨_, _, rfl⟩

end LogsFirehoseTransform

/-! ## Claims C1, C3, C4: scheduler behaviour -/

namespace Ec2BusinessHours

/-- On a rest day the EC2 start branch never issues `StartInstances`,
whatever the instance state is. -/
theorem start_no_startInstances_on_holiday (cfg : Config) (p : Provider)
    (today : CivilDate) (h : isJapanHolidayJst today = true) :
    Ec2Action.startInstances cfg.instanceId ∉ (handler cfg p today "start").1 := by
  unfold handler
  simp only [if_pos rfl, h, if_true]
  generalize (decide (((p.describe 0).bind fun v => v.stateName) = some "running")) = r
  generalize (decide (((p.describe 0).bind fun v => v.stateName) = some "pending")) = q
  cases r <;> cases q <;>
    simp only [Bool.not_true, Bool.not_false, Bool.true_and, Bool.and_true,
      Bool.false_and, Bool.and_false, Bool.and_self, Bool.not_and, if_true, if_false,
      Bool.false_eq_true, List.nil_append, List.mem_cons, List.mem_append, not_or] <;>
    (split <;> simp [startInstances_not_mem_dnsLoop cfg p cfg.instanceId])

/-- On a rest day with the instance neither running nor pending, the EC2
start branch reports `{ skipped: true }`. -/
theorem start_skipped_on_holiday (cfg : Config) (p : Provider) (today : CivilDate)
    (h : isJapanHolidayJst today = true)
    (hR : ((p.describe 0).bind fun v => v.stateName) ≠ some "running")
    (hP : ((p.describe 0).bind fun v => v.stateName) ≠ some "pending") :
    (handler cfg p today "start").2 = Except.ok SchedulerResult.skippedTrue := by
  unfold handler
  simp [h, hR, hP, ite_self, Except.map]

end Ec2BusinessHours

/-- C1: the claim that every scheduler start/up invocation on a rest day
returns `{ skipped: true }` fails for the EC2 handler: on 2025-01-01 (a
static holiday) with the instance already running, the handler returns
`{ ok: true }`, not `{ skipped: true }`. -/
theorem C1_rest_day_skip_counterexample :
    isJapanHolidayJst ⟨2025, 1, 1⟩ = true ∧
    (Ec2BusinessHours.handler ⟨"i-0abc", "Z1", "bastion.example.com"⟩
      ⟨fun _ => some ⟨some "running", some "203.0.113.7"⟩,
        Except.ok (), Except.ok (), fun _ => Except.ok ()⟩
      ⟨2025, 1, 1⟩ "start").2 = Except.ok SchedulerResult.okTrue ∧
    SchedulerResult.okTrue ≠ SchedulerResult.skippedTrue := by
  refine ⟨by decide, by rfl, by decide⟩

/-- C1 (amended): on every rest day — Saturday, Sunday or a static
holiday, as computed by `isJapanHolidayJst` — the ECS `up` and RDS
`start` handlers return `{ skipped: true }` and issue zero calls, and the
EC2 `start` handler issues zero `StartInstances` calls; the EC2 handler
returns `{ skipped: true }` provided the instance is not already running
or pending (otherwise it returns `{ ok: true }`). -/
theorem C1_rest_day_skip_amended (today : CivilDate)
    (h : isJapanHolidayJst today = true)
    (ecfg : EcsBusinessHours.Config) (ep : EcsBusinessHours.Provider)
    (cfg : Ec2BusinessHours.Config) (p : Ec2BusinessHours.Provider)
    (dbId : String) (rp : RdsBusinessHours.Provider) :
    EcsBusinessHours.handler ecfg ep today "up" =
      ([], Except.ok SchedulerResult.skippedTrue) ∧
    RdsBusinessHours.handler dbId rp today "start" =
      ([], Except.ok SchedulerResult.skippedTrue) ∧
    Ec2BusinessHours.Ec2Action.startInstances cfg.instanceId ∉
      (Ec2BusinessHours.handler cfg p today "start").1 ∧
    (((p.describe 0).bind fun v => v.stateName) ≠ some "running" →
      ((p.describe 0).bind fun v => v.stateName) ≠ some "pending" →
      (Ec2BusinessHours.handler cfg p today "start").2 =
        Except.ok SchedulerResult.skippedTrue) := by
  refine ⟨?_, ?_, ?_, ?_⟩
  · unfold EcsBusinessHours.handler
    simp [h]
  · unfold RdsBusinessHours.handler
    simp [h]
  · exact Ec2BusinessHours.start_no_startInstances_on_holiday cfg p today h
  · intro hR hP
    exact Ec2BusinessHours.start_skipped_on_holiday cfg p today h hR hP

/-- Witness for C1 (amended) at 2025-01-01 with a stopped instance. -/
theorem C1_rest_day_skip_amended_witness :
    EcsBusinessHours.handler ⟨"cl", "fe", "be", "job", 2⟩ ⟨fun _ => Except.ok ()⟩
      ⟨2025, 1, 1⟩ "up" = ([], Except.ok SchedulerResult.skippedTrue) ∧
    RdsBusinessHours.handler "db-1" ⟨Except.ok (), Except.ok ()⟩ ⟨2025, 1, 1⟩ "start" =
      ([], Except.ok SchedulerResult.skippedTrue) ∧
    Ec2BusinessHours.Ec2Action.startInstances "i-1" ∉
      (Ec2BusinessHours.handler ⟨"i-1", "Z1", "rec"⟩
        ⟨fun _ => some ⟨some "stopped", none⟩, Except.ok (), Except.ok (),
          fun _ => Except.ok ()⟩ ⟨2025, 1, 1⟩ "start").1 ∧
    (Ec2BusinessHours.handler ⟨"i-1", "Z1", "rec"⟩
      ⟨fun _ => some ⟨some "stopped", none⟩, Except.ok (), Except.ok (),
        fun _ => Except.ok ()⟩ ⟨2025, 1, 1⟩ "start").2 =
      Except.ok SchedulerResult.skippedTrue := by
  have h := C1_rest_day_skip_amended ⟨2025, 1, 1⟩ (by decide)
    ⟨"cl", "fe", "be", "job", 2⟩ ⟨fun _ => Except.ok ()⟩ ⟨"i-1", "Z1", "rec"⟩
    ⟨fun _ => some ⟨some "stopped", none⟩, Except.ok (), Except.ok (),
      fun _ => Except.ok ()⟩ "db-1" ⟨Except.ok (), Except.ok ()⟩
  exact ⟨h.1, h.2.1, h.2.2.1, h.2.2.2 (by decide) (by decide)⟩

/-- C3: the claim that every stop handler treats the provider's
already-in-target-state error as success fails for the RDS handler: when
`StopDBInstance` throws (as it does for an already-stopped instance), the
error escapes the handler instead of yielding `{ ok: true }`. -/
theorem C3_stop_idempotence_counterexample :
    (RdsBusinessHours.handler "db-1"
      ⟨Except.ok (), Except.error "InvalidDBInstanceState"⟩ ⟨2025, 6, 2⟩ "stop").2 =
      Except.error "InvalidDBInstanceState" ∧
    (Except.error "InvalidDBInstanceState" : Except String SchedulerResult) ≠
      Except.ok SchedulerResult.okTrue := by
  exact ⟨rfl, by simp⟩

/-- C3 (amended): the EC2 stop handler catches any provider error and
returns `{ ok: true }`; the RDS stop and ECS down handlers issue their
calls unconditionally but pass a provider error through instead of
converting it to success (a successful provider response still yields
`{ ok: true }`). -/
theorem C3_stop_idempotence_amended (today : CivilDate)
    (cfg : Ec2BusinessHours.Config) (p : Ec2BusinessHours.Provider)
    (dbId : String) (rp : RdsBusinessHours.Provider)
    (ecfg : EcsBusinessHours.Config) (ep : EcsBusinessHours.Provider) :
    Ec2BusinessHours.handler cfg p today "stop" =
      ([Ec2BusinessHours.Ec2Action.stopInstances cfg.instanceId],
        Except.ok SchedulerResult.okTrue) ∧
    (RdsBusinessHours.handler dbId rp today "stop").1 =
      [RdsBusinessHours.RdsAction.stopDBInstance dbId] ∧
    (rp.stopOutcome = Except.ok () →
      (RdsBusinessHours.handler dbId rp today "stop").2 =
        Except.ok SchedulerResult.okTrue) ∧
    (∀ e, rp.stopOutcome = Except.error e →
      (RdsBusinessHours.handler dbId rp today "stop").2 = Except.error e) ∧
    ((∀ a, ep.updateOutcome a = Except.ok ()) →
      (EcsBusinessHours.handler ecfg ep today "down").2 =
        Except.ok SchedulerResult.okTrue) ∧
    (∀ e, ep.updateOutcome (EcsBusinessHours.EcsAction.updateService
        ecfg.clusterName ecfg.frontendServiceName 0) = Except.error e →
      (EcsBusinessHours.handler ecfg ep today "down").2 = Except.error e) := by
  refine ⟨?_, ?_, ?_, ?_, ?_, ?_⟩
  · unfold Ec2BusinessHours.handler
    cases p.stopOutcome <;> simp
  · unfold RdsBusinessHours.handler
    simp
  · intro hok
    unfold RdsBusinessHours.handler
    simp [hok, Except.map]
  · intro e he
    unfold RdsBusinessHours.handler
    simp [he, Except.map]
  · intro hall
    unfold EcsBusinessHours.handler
    simp [hall, exceptAll, Except.map]
  · intro e he
    unfold EcsBusinessHours.handler
    simp [he, exceptAll, Except.map]

/-- Witness for C3 (amended): a failing RDS stop escapes, an all-ok ECS
down and any EC2 stop return `{ ok: true }`. -/
theorem C3_stop_idempotence_amended_witness :
    Ec2BusinessHours.handler ⟨"i-1", "", ""⟩
      ⟨fun _ => none, Except.ok (), Except.error "stop failed", fun _ => Except.ok ()⟩
      ⟨2025, 6, 2⟩ "stop" =
      ([Ec2BusinessHours.Ec2Action.stopInstances "i-1"],
        Except.ok SchedulerResult.okTrue) ∧
    (RdsBusinessHours.handler "db-1" ⟨Except.ok (), Except.error "boom"⟩
      ⟨2025, 6, 2⟩ "stop").2 = Except.error "boom" ∧
    (EcsBusinessHours.handler ⟨"cl", "fe", "be", "job", 1⟩ ⟨fun _ => Except.ok ()⟩
      ⟨2025, 6, 2⟩ "down").2 = Except.ok SchedulerResult.okTrue := by
  have h := C3_stop_idempotence_amended ⟨2025, 6, 2⟩ ⟨"i-1", "", ""⟩
    ⟨fun _ => none, Except.ok (), Except.error "stop failed", fun _ => Except.ok ()⟩
    "db-1" ⟨Except.ok (), Except.error "boom"⟩ ⟨"cl", "fe", "be", "job", 1⟩
    ⟨fun _ => Except.ok ()⟩
  exact ⟨h.1, h.2.2.2.1 "boom" rfl, h.2.2.2.2.1 fun a => rfl⟩

/-- C4: for every date — rest day or not — and every provider outcome,
the stop/scale-down path issues its provider calls unconditionally: ECS
`down` scales all three services to zero, EC2 `stop` issues
`StopInstances`, RDS `stop` issues `StopDBInstance`; the rest-day check
never suppresses the stop path. -/
theorem C4_stop_unconditional (today : CivilDate)
    (ecfg : EcsBusinessHours.Config) (ep : EcsBusinessHours.Provider)
    (cfg : Ec2BusinessHours.Config) (p : Ec2BusinessHours.Provider)
    (dbId : String) (rp : RdsBusinessHours.Provider) :
    (EcsBusinessHours.handler ecfg ep today "down").1 =
      [EcsBusinessHours.EcsAction.updateService ecfg.clusterName ecfg.frontendServiceName 0,
       EcsBusinessHours.EcsAction.updateService ecfg.clusterName ecfg.backendServiceName 0,
       EcsBusinessHours.EcsAction.updateService ecfg.clusterName ecfg.jobServiceName 0] ∧
    (Ec2BusinessHours.handler cfg p today "stop").1 =
      [Ec2BusinessHours.Ec2Action.stopInstances cfg.instanceId] ∧
    (RdsBusinessHours.handler dbId rp today "stop").1 =
      [RdsBusinessHours.RdsAction.stopDBInstance dbId] := by
  refine ⟨?_, ?_, ?_⟩
  · unfold EcsBusinessHours.handler
    simp
  · unfold Ec2BusinessHours.handler
    cases p.stopOutcome <;> simp
  · unfold RdsBusinessHours.handler
    simp

/-! ## Claims C9, C2: log transform batch shape and concrete batch -/

namespace LogsFirehoseTransform

theorem flatMap_processRecord_recordIds (c : Codec) :
    ∀ l : List FirehoseTransformationEventRecord,
      ((l.flatMap (processRecord c)).map fun r => r.recordId) =
        l.map fun r => r.recordId
  | [] => by simp
  | r :: rs => by
    obtain ⟨res, data, hshape⟩ := processRecord_shape c r
    simp [hshape, flatMap_processRecord_recordIds c rs]

end LogsFirehoseTransform

/-- C9: the log-transform handler returns exactly one result record per
input record, in input order, and each result record carries the
recordId of the corresponding input record — whatever the per-record
outcome (Ok, Dropped or ProcessingFailed) was. -/
theorem C9_batch_shape (c : LogsFirehoseTransform.Codec)
    (event : LogsFirehoseTransform.FirehoseTransformationEvent) :
    ((LogsFirehoseTransform.handler c event).records.map fun r => r.recordId) =
      (event.records.map fun r => r.recordId) ∧
    (LogsFirehoseTransform.handler c event).records.length = event.records.length := by
  have h := LogsFirehoseTransform.flatMap_processRecord_recordIds c event.records
  refine ⟨h, ?_⟩
  calc (LogsFirehoseTransform.handler c event).records.length
      = ((LogsFirehoseTransform.handler c event).records.map fun r => r.recordId).length :=
        (List.length_map _ _).symm
    _ = (event.records.map fun r => r.recordId).length := by
        rw [show (LogsFirehoseTransform.handler c event).records =
          event.records.flatMap (LogsFirehoseTransform.processRecord c) from rfl, h]
    _ = event.records.length := List.length_map _ _

open LogsFirehoseTransform in
/-- C2: for a Firehose event holding one CONTROL_MESSAGE record and one
DATA_MESSAGE record whose three log events are two JSON-object messages
and one non-JSON message, the handler returns exactly one `Dropped`
record (the control message, with its recordId) and exactly one `Ok`
record whose base64 data decodes to exactly the two enriched objects. -/
theorem C2_control_and_data_batch (c : Codec) (invId arn region : String)
    (r1 r2 : FirehoseTransformationEventRecord)
    (p1 p2 : CloudWatchLogsFirehosePayload) (e1 e2 e3 : LogEvent)
    (f1 f2 : JsonObj)
    (h1 : c.decodePayload r1.data = some p1)
    (h1m : p1.messageType = "CONTROL_MESSAGE")
    (h2 : c.decodePayload r2.data = some p2)
    (h2m : p2.messageType = "DATA_MESSAGE")
    (hev : p2.logEvents = [e1, e2, e3])
    (ht1 : jsTrim e1.message ≠ "")
    (hp1 : c.parseJson (jsTrim e1.message) = some (Json.obj f1))
    (ht2 : jsTrim e2.message ≠ "")
    (hp2 : c.parseJson (jsTrim e2.message) = some (Json.obj f2))
    (hp3 : c.parseJson (jsTrim e3.message) = none) :
    handler c ⟨invId, arn, region, [r1, r2]⟩ =
      ⟨[⟨r1.recordId, FirehoseRecordResult.dropped, r1.data⟩,
        ⟨r2.recordId, FirehoseRecordResult.ok,
          encodeRecords [enrich p2 e1 f1, enrich p2 e2 f2]⟩]⟩ ∧
    ((handler c ⟨invId, arn, region, [r1, r2]⟩).records.filter
      fun r => r.result = FirehoseRecordResult.dropped).length = 1 ∧
    ((handler c ⟨invId, arn, region, [r1, r2]⟩).records.filter
      fun r => r.result = FirehoseRecordResult.ok).length = 1 ∧
    decodeB64 (encodeRecords [enrich p2 e1 f1, enrich p2 e2 f2]) =
      some (utf8Bytes (String.intercalate "\n"
        [Json.stringify (Json.obj (enrich p2 e1 f1)),
         Json.stringify (Json.obj (enrich p2 e2 f2))] ++ "\n")) := by
  have hmsgs : enrichedMessages c p2 = [enrich p2 e1 f1, enrich p2 e2 f2] := by
    unfold enrichedMessages
    rw [hev]
    simp only [List.filterMap_cons, List.filterMap_nil]
    rw [if_neg ht1, hp1, if_neg ht2, hp2]
    by_cases h3 : jsTrim e3.message = ""
    · simp [h3, jsTruthy, jsTypeofObject, spreadFields]
    · simp [if_neg h3, hp3, jsTruthy, jsTypeofObject, spreadFields]
  have hpr1 : processRecord c r1 =
      [⟨r1.recordId, FirehoseRecordResult.dropped, r1.data⟩] := by
    unfold processRecord
    rw [h1]
    dsimp only
    rw [h1m]
    simp [buildErrorRecord]
  have hpr2 : processRecord c r2 =
      [⟨r2.recordId, FirehoseRecordResult.ok,
        encodeRecords [enrich p2 e1 f1, enrich p2 e2 f2]⟩] := by
    unfold processRecord
    rw [h2]
    dsimp only
    rw [h2m]
    simp [hmsgs]
  have hout : handler c ⟨invId, arn, region, [r1, r2]⟩ =
      ⟨[⟨r1.recordId, FirehoseRecordResult.dropped, r1.data⟩,
        ⟨r2.recordId, FirehoseRecordResult.ok,
          encodeRecords [enrich p2 e1 f1, enrich p2 e2 f2]⟩]⟩ := by
    unfold handler
    simp [hpr1, hpr2]
  refine ⟨hout, ?_, ?_, ?_⟩
  · rw [hout]; simp
  · rw [hout]; simp
  · unfold encodeRecords
    simp only [List.map_cons, List.map_nil]
    exact decodeB64_utf8 _

namespace LogsFirehoseTransform

/-- Concrete DATA_MESSAGE payload used to witness C2. -/
def c2SamplePayload : CloudWatchLogsFirehosePayload :=
  ⟨"DATA_MESSAGE", "111", "grp", "strm", [],
    [⟨"e1", 0, " \x7b\"a\":1\x7d "⟩, ⟨"e2", 86400123, "\x7b\"b\":2\x7d"⟩,
     ⟨"e3", 5, "oops"⟩]⟩

/-- Concrete codec used to witness C2: two payloads, two parsable
messages. -/
def c2SampleCodec : Codec where
  decodePayload := fun s =>
    if s = "ctrl-data" then some ⟨"CONTROL_MESSAGE", "111", "grp", "strm", [], []⟩
    else if s = "gzip-data" then some c2SamplePayload
    else none
  parseJson := fun s =>
    if s = "\x7b\"a\":1\x7d" then
      some (Json.obj (JsonObj.cons "a" (Json.num 1) JsonObj.nil))
    else if s = "\x7b\"b\":2\x7d" then
      some (Json.obj (JsonObj.cons "b" (Json.num 2) JsonObj.nil))
    else none

end LogsFirehoseTransform

open LogsFirehoseTransform in
/-- Witness for C2 at a concrete two-record event. -/
theorem C2_control_and_data_batch_witness :
    handler c2SampleCodec ⟨"inv", "arn", "reg",
      [⟨"rid-1", 0, "ctrl-data"⟩, ⟨"rid-2", 0, "gzip-data"⟩]⟩ =
      ⟨[⟨"rid-1", FirehoseRecordResult.dropped, "ctrl-data"⟩,
        ⟨"rid-2", FirehoseRecordResult.ok, encodeRecords
          [enrich c2SamplePayload ⟨"e1", 0, " \x7b\"a\":1\x7d "⟩
            (JsonObj.cons "a" (Json.num 1) JsonObj.nil),
           enrich c2SamplePayload ⟨"e2", 86400123, "\x7b\"b\":2\x7d"⟩
            (JsonObj.cons "b" (Json.num 2) JsonObj.nil)]⟩]⟩ ∧
    ((handler c2SampleCodec ⟨"inv", "arn", "reg",
      [⟨"rid-1", 0, "ctrl-data"⟩, ⟨"rid-2", 0, "gzip-data"⟩]⟩).records.filter
        fun r => r.result = FirehoseRecordResult.dropped).length = 1 ∧
    ((handler c2SampleCodec ⟨"inv", "arn", "reg",
      [⟨"rid-1", 0, "ctrl-data"⟩, ⟨"rid-2", 0, "gzip-data"⟩]⟩).records.filter
        fun r => r.result = FirehoseRecordResult.ok).length = 1 := by
  have h := C2_control_and_data_batch c2SampleCodec "inv" "arn" "reg"
    ⟨"rid-1", 0, "ctrl-data"⟩ ⟨"rid-2", 0, "gzip-data"⟩
    ⟨"CONTROL_MESSAGE", "111", "grp", "strm", [], []⟩ c2SamplePayload
    ⟨"e1", 0, " \x7b\"a\":1\x7d "⟩ ⟨"e2", 86400123, "\x7b\"b\":2\x7d"⟩
    ⟨"e3", 5, "oops"⟩
    (JsonObj.cons "a" (Json.num 1) JsonObj.nil)
    (JsonObj.cons "b" (Json.num 2) JsonObj.nil)
    rfl rfl rfl rfl rfl (by decide) rfl (by decide) rfl rfl
  exact ⟨h.1, h.2.1, h.2.2.1⟩

/-! ## Claim C8: single-architecture image guard -/

theorem string_data_append (a b : String) : (a ++ b).data = a.data ++ b.data := rfl

namespace EcrValidateSingleArch

theorem patAtHead_self : ∀ pat rest : List Char, patAtHead pat (pat ++ rest) = true
  | [], _ => rfl
  | p :: ps, rest => by simp [patAtHead, patAtHead_self ps rest]

theorem hasPat_here : ∀ (pat rest : List Char), hasPat (pat ++ rest) pat = true := by
  intro pat rest
  match pat with
  | [] =>
    match rest with
    | [] => rfl
    | c :: cs => simp [hasPat, patAtHead]
  | p :: ps =>
    simp only [hasPat, List.cons_append, Bool.or_eq_true]
    exact Or.inl (patAtHead_self (p :: ps) rest)

theorem hasPat_append_left : ∀ (pre l pat : List Char),
    hasPat l pat = true → hasPat (pre ++ l) pat = true
  | [], l, pat => fun h => h
  | c :: pre, l, pat => fun h => by
    simp only [List.cons_append, hasPat, List.append_eq]
    rw [hasPat_append_left pre l pat h]
    simp

theorem strIncludes_right (x pat y : String) : strIncludes (x ++ (pat ++ y)) pat = true := by
  simp only [strIncludes, String.toList, string_data_append]
  exact hasPat_append_left _ _ _ (hasPat_here _ _)

end EcrValidateSingleArch

open EcrValidateSingleArch in
/-- C8: on Create or Update, a missing image detail makes the image-guard
handler throw an error naming the repository and the resolved tag, and a
multi-arch media type (containing `manifest.list` or `image.index`) makes
it throw an error naming the repository and tag; in both failure cases no
PhysicalResourceId is returned. -/
theorem C8_image_guard_failures (lookupResult : Option ImageDetail)
    (event : Event)
    (hreq : event.requestType = "Create" ∨ event.requestType = "Update") :
    (lookupResult = none →
      ∃ msg, handler lookupResult event = Except.error msg ∧
        strIncludes msg event.resourceProperties.repositoryName = true ∧
        strIncludes msg (jsOrStr event.resourceProperties.imageTag "latest") = true ∧
        ∀ id, handler lookupResult event ≠ Except.ok id) ∧
    (∀ details, lookupResult = some details →
      (isIndex details.artifactMediaType || isIndex details.imageManifestMediaType) = true →
      ∃ msg, handler lookupResult event = Except.error msg ∧
        strIncludes msg event.resourceProperties.repositoryName = true ∧
        strIncludes msg (jsOrStr event.resourceProperties.imageTag "latest") = true ∧
        ∀ id, handler lookupResult event ≠ Except.ok id) := by
  have hne : event.requestType ≠ "Delete" := by
    rcases hreq with h | h <;> simp [h]
  constructor
  · intro hnone
    subst hnone
    unfold handler
    rw [if_neg hne]
    dsimp only
    refine ⟨_, rfl, ?_, ?_, fun id h => Except.noConfusion h⟩
    · simp only [strIncludes, String.toList, string_data_append, List.append_assoc]
      apply hasPat_append_left
      exact hasPat_here _ _
    · simp only [strIncludes, String.toList, string_data_append, List.append_assoc]
      apply hasPat_append_left
      apply hasPat_append_left
      apply hasPat_append_left
      exact hasPat_here _ _
  · intro details hsome hidx
    subst hsome
    unfold handler
    rw [if_neg hne]
    dsimp only
    rw [if_pos hidx]
    refine ⟨_, rfl, ?_, ?_, ?_⟩
    · simp only [strIncludes, String.toList, string_data_append, List.append_assoc]
      apply hasPat_append_left
      exact hasPat_here _ _
    · simp only [strIncludes, String.toList, string_data_append, List.append_assoc]
      apply hasPat_append_left
      apply hasPat_append_left
      apply hasPat_append_left
      exact hasPat_here _ _
    · intro id h
      exact Except.noConfusion h

open EcrValidateSingleArch in
/-- Witness for C8: a missing tag and an OCI image-index media type both
produce blocking errors naming `my-repo` and `v1`. -/
theorem C8_image_guard_failures_witness :
    (∃ msg, handler none ⟨"Create", ⟨"my-repo", "v1", none⟩⟩ = Except.error msg ∧
      strIncludes msg "my-repo" = true ∧
      strIncludes msg (jsOrStr "v1" "latest") = true ∧
      ∀ id, handler none ⟨"Create", ⟨"my-repo", "v1", none⟩⟩ ≠ Except.ok id) ∧
    (∃ msg, handler (some ⟨some "application/vnd.oci.image.index.v1+json", none⟩)
        ⟨"Update", ⟨"my-repo", "v1", none⟩⟩ = Except.error msg ∧
      strIncludes msg "my-repo" = true ∧
      strIncludes msg (jsOrStr "v1" "latest") = true ∧
      ∀ id, handler (some ⟨some "application/vnd.oci.image.index.v1+json", none⟩)
        ⟨"Update", ⟨"my-repo", "v1", none⟩⟩ ≠ Except.ok id) := by
  have h1 := C8_image_guard_failures none ⟨"Create", ⟨"my-repo", "v1", none⟩⟩ (Or.inl rfl)
  have h2 := C8_image_guard_failures
    (some ⟨some "application/vnd.oci.image.index.v1+json", none⟩)
    ⟨"Update", ⟨"my-repo", "v1", none⟩⟩ (Or.inr rfl)
  exact ⟨h1.1 rfl, h2.2 _ rfl (by decide)⟩

/-! ## Helper lemmas: db-init state semantics -/

namespace DbInit

theorem getAccount_mapAccount_same : ∀ (st : DbState) (u : String) (f : AccountState → AccountState),
    getAccount (mapAccount st u f) u = (getAccount st u).map f
  | [], u, f => rfl
  | e :: rest, u, f => by
    by_cases h : e.1 = u
    · simp [mapAccount, getAccount, h]
    · simp [mapAccount, getAccount, h, getAccount_mapAccount_same rest u f]

theorem getAccount_mapAccount_ne : ∀ (st : DbState) (u u' : String)
    (f : AccountState → AccountState), u' ≠ u →
    getAccount (mapAccount st u f) u' = getAccount st u'
  | [], u, u', f => fun _ => rfl
  | e :: rest, u, u', f => fun h => by
    by_cases h1 : e.1 = u
    · simp [mapAccount, getAccount, h1, Ne.symm h, getAccount_mapAccount_ne rest u u' f h]
    · by_cases h2 : e.1 = u'
      · simp [mapAccount, getAccount, h1, h2, h]
      · simp [mapAccount, getAccount, h1, h2, h, getAccount_mapAccount_ne rest u u' f h]

theorem getAccount_append : ∀ (st st2 : DbState) (u : String),
    getAccount (st ++ st2) u =
      (match getAccount st u with
       | some a => some a
       | none => getAccount st2 u)
  | [], st2, u => rfl
  | e :: rest, st2, u => by
    by_cases h : e.1 = u
    · simp [getAccount, h]
    · simp [getAccount, h, getAccount_append rest st2 u]

end DbInit

namespace DbInit

theorem applyStmt_create_same (st : DbState) (u p : String) :
    getAccount (applyStmt st (SqlStmt.createUserIfNotExists u p)) u =
      some (match getAccount st u with
            | some a => a
            | none => ⟨p, []⟩) := by
  unfold applyStmt
  dsimp only
  cases h : getAccount st u with
  | some a => simp [h]
  | none => rw [getAccount_append, h]; simp [getAccount]

theorem applyStmt_create_ne (st : DbState) (u p u' : String) (h : u' ≠ u) :
    getAccount (applyStmt st (SqlStmt.createUserIfNotExists u p)) u' =
      getAccount st u' := by
  unfold applyStmt
  dsimp only
  cases hg : getAccount st u with
  | some a => rfl
  | none =>
    rw [getAccount_append]
    cases hg2 : getAccount st u' <;> simp [getAccount, Ne.symm h]

theorem applyStmt_alter_same (st : DbState) (u p : String) :
    getAccount (applyStmt st (SqlStmt.alterUserPassword u p)) u =
      (getAccount st u).map fun a => { a with password := p } :=
  getAccount_mapAccount_same st u _

theorem applyStmt_grantAll_same (st : DbState) (db u : String) :
    getAccount (applyStmt st (SqlStmt.grantAllOn db u)) u =
      (getAccount st u).map fun a => { a with privileges := allPrivileges ++ a.privileges } :=
  getAccount_mapAccount_same st u _

theorem applyStmt_revokeDrop_same (st : DbState) (db u : String) :
    getAccount (applyStmt st (SqlStmt.revokeDropOn db u)) u =
      (getAccount st u).map fun a =>
        { a with privileges := a.privileges.filter fun pr => pr ≠ Privilege.drop } :=
  getAccount_mapAccount_same st u _

theorem applyStmt_grantSelect_same (st : DbState) (db u : String) :
    getAccount (applyStmt st (SqlStmt.grantSelectOn db u)) u =
      (getAccount st u).map fun a =>
        { a with privileges := Privilege.select :: a.privileges } :=
  getAccount_mapAccount_same st u _

theorem getAccount_applyStmt_ne (st : DbState) (u' : String) :
    ∀ s : SqlStmt,
      (∀ u p, s = SqlStmt.createUserIfNotExists u p → u' ≠ u) →
      (∀ u p, s = SqlStmt.alterUserPassword u p → u' ≠ u) →
      (∀ db u, s = SqlStmt.grantAllOn db u → u' ≠ u) →
      (∀ db u, s = SqlStmt.revokeDropOn db u → u' ≠ u) →
      (∀ db u, s = SqlStmt.grantSelectOn db u → u' ≠ u) →
      getAccount (applyStmt st s) u' = getAccount st u'
  | SqlStmt.createUserIfNotExists u p, h1, _, _, _, _ =>
    applyStmt_create_ne st u p u' (h1 u p rfl)
  | SqlStmt.alterUserPassword u p, _, h2, _, _, _ =>
    getAccount_mapAccount_ne st u u' _ (h2 u p rfl)
  | SqlStmt.grantAllOn db u, _, _, h3, _, _ =>
    getAccount_mapAccount_ne st u u' _ (h3 db u rfl)
  | SqlStmt.revokeDropOn db u, _, _, _, h4, _ =>
    getAccount_mapAccount_ne st u u' _ (h4 db u rfl)
  | SqlStmt.grantSelectOn db u, _, _, _, _, h5 =>
    getAccount_mapAccount_ne st u u' _ (h5 db u rfl)
  | SqlStmt.flushPrivileges, _, _, _, _, _ => rfl

end DbInit

namespace DbInit

theorem applyStmt_flush (st : DbState) : applyStmt st SqlStmt.flushPrivileges = st := rfl

theorem applyStmt_alter_ne (st : DbState) (u p u' : String) (h : u' ≠ u) :
    getAccount (applyStmt st (SqlStmt.alterUserPassword u p)) u' = getAccount st u' :=
  getAccount_mapAccount_ne st u u' _ h

theorem applyStmt_grantAll_ne (st : DbState) (db u u' : String) (h : u' ≠ u) :
    getAccount (applyStmt st (SqlStmt.grantAllOn db u)) u' = getAccount st u' :=
  getAccount_mapAccount_ne st u u' _ h

theorem applyStmt_revokeDrop_ne (st : DbState) (db u u' : String) (h : u' ≠ u) :
    getAccount (applyStmt st (SqlStmt.revokeDropOn db u)) u' = getAccount st u' :=
  getAccount_mapAccount_ne st u u' _ h

theorem applyStmt_grantSelect_ne (st : DbState) (db u u' : String) (h : u' ≠ u) :
    getAccount (applyStmt st (SqlStmt.grantSelectOn db u)) u' = getAccount st u' :=
  getAccount_mapAccount_ne st u u' _ h

theorem run_ensureUser_app (st : DbState) (u p db : String) :
    getAccount (runStmts st (ensureUser u p db true)) u =
      some ⟨p, (allPrivileges ++ privsOf st u).filter fun pr => pr ≠ Privilege.drop⟩ := by
  simp only [ensureUser, if_true, List.cons_append, List.nil_append, runStmts,
    List.foldl_cons, List.foldl_nil]
  rw [applyStmt_flush, applyStmt_revokeDrop_same, applyStmt_grantAll_same,
    applyStmt_alter_same, applyStmt_create_same]
  cases hg : getAccount st u <;> simp [privsOf, hg]

theorem run_ensureUser_ro (st : DbState) (u p db : String) :
    getAccount (runStmts st (ensureUser u p db false)) u =
      some ⟨p, Privilege.select :: privsOf st u⟩ := by
  simp only [ensureUser, Bool.false_eq_true, if_false, List.cons_append, List.nil_append,
    runStmts, List.foldl_cons, List.foldl_nil]
  rw [applyStmt_flush, applyStmt_grantSelect_same, applyStmt_alter_same,
    applyStmt_create_same]
  cases hg : getAccount st u <;> simp [privsOf, hg]

theorem run_ensureUser_other (st : DbState) (u p db : String) (isApp : Bool)
    (u' : String) (h : u' ≠ u) :
    getAccount (runStmts st (ensureUser u p db isApp)) u' = getAccount st u' := by
  cases isApp
  · simp only [ensureUser, Bool.false_eq_true, if_false, List.cons_append, List.nil_append,
      runStmts, List.foldl_cons, List.foldl_nil]
    rw [applyStmt_flush, applyStmt_grantSelect_ne _ _ _ _ h, applyStmt_alter_ne _ _ _ _ h,
      applyStmt_create_ne _ _ _ _ h]
  · simp only [ensureUser, if_true, List.cons_append, List.nil_append, runStmts,
      List.foldl_cons, List.foldl_nil]
    rw [applyStmt_flush, applyStmt_revokeDrop_ne _ _ _ _ h, applyStmt_grantAll_ne _ _ _ _ h,
      applyStmt_alter_ne _ _ _ _ h, applyStmt_create_ne _ _ _ _ h]

end DbInit

open DbInit in
/-- C6: one bootstrap run executes exactly the statement sequence of
`ensureUser` for the application account followed by `ensureUser` for the
read-only account — the only grant for the read-only account is
`GRANT SELECT`, and the application account's `GRANT ALL` is followed by
`REVOKE DROP`.  Under the statement semantics, after a run from any
state the application account holds every privilege except `DROP`, a
read-only account whose privileges were at most SELECT ends with exactly
SELECT, and that invariant is preserved by every repeated run. -/
theorem C6_privilege_invariant (appU appP roU roP db : String) (hne : roU ≠ appU) :
    (ensureUser appU appP db true ++ ensureUser roU roP db false =
      [SqlStmt.createUserIfNotExists appU appP, SqlStmt.alterUserPassword appU appP,
       SqlStmt.grantAllOn db appU, SqlStmt.revokeDropOn db appU, SqlStmt.flushPrivileges,
       SqlStmt.createUserIfNotExists roU roP, SqlStmt.alterUserPassword roU roP,
       SqlStmt.grantSelectOn db roU, SqlStmt.flushPrivileges]) ∧
    (∀ st : DbState, ∃ a, getAccount (runStmts st
        (ensureUser appU appP db true ++ ensureUser roU roP db false)) appU = some a ∧
      Privilege.drop ∉ a.privileges ∧
      ∀ pr ∈ allPrivileges, pr ≠ Privilege.drop → pr ∈ a.privileges) ∧
    (∀ st : DbState, (∀ pr ∈ privsOf st roU, pr = Privilege.select) →
      ∃ a, getAccount (runStmts st
          (ensureUser appU appP db true ++ ensureUser roU roP db false)) roU = some a ∧
        Privilege.select ∈ a.privileges ∧
        ∀ pr ∈ a.privileges, pr = Privilege.select) ∧
    (∀ st : DbState, (∀ pr ∈ privsOf st roU, pr = Privilege.select) →
      ∀ pr ∈ privsOf (runStmts st
          (ensureUser appU appP db true ++ ensureUser roU roP db false)) roU,
        pr = Privilege.select) := by
  have hsplit : ∀ st : DbState,
      runStmts st (ensureUser appU appP db true ++ ensureUser roU roP db false) =
        runStmts (runStmts st (ensureUser appU appP db true)) (ensureUser roU roP db false) := by
    intro st
    simp [runStmts, List.foldl_append]
  refine ⟨by simp [ensureUser], ?_, ?_, ?_⟩
  · intro st
    have happ := run_ensureUser_app st appU appP db
    have hfinal : getAccount (runStmts st
        (ensureUser appU appP db true ++ ensureUser roU roP db false)) appU =
        some ⟨appP, (allPrivileges ++ privsOf st appU).filter fun pr => pr ≠ Privilege.drop⟩ := by
      rw [hsplit st, run_ensureUser_other _ _ _ _ _ _ (Ne.symm hne), happ]
    refine ⟨_, hfinal, ?_, ?_⟩
    · simp
    · intro pr hpr hprne
      simp only [List.mem_filter, List.mem_append]
      exact ⟨Or.inl hpr, by simpa using hprne⟩
  · intro st hclean
    have hro := run_ensureUser_ro (runStmts st (ensureUser appU appP db true)) roU roP db
    have hprivs : privsOf (runStmts st (ensureUser appU appP db true)) roU = privsOf st roU := by
      unfold privsOf
      rw [run_ensureUser_other _ _ _ _ _ _ hne]
    rw [hprivs] at hro
    refine ⟨_, by rw [hsplit st, hro], by simp, ?_⟩
    intro pr hpr
    simp only [List.mem_cons] at hpr
    rcases hpr with h | h
    · exact h
    · exact hclean pr h
  · intro st hclean pr hpr
    have hro := run_ensureUser_ro (runStmts st (ensureUser appU appP db true)) roU roP db
    have hprivs : privsOf (runStmts st (ensureUser appU appP db true)) roU = privsOf st roU := by
      unfold privsOf
      rw [run_ensureUser_other _ _ _ _ _ _ hne]
    rw [hprivs] at hro
    rw [hsplit st] at hpr
    unfold privsOf at hpr
    rw [hro] at hpr
    simp only [List.mem_cons] at hpr
    rcases hpr with h | h
    · exact h
    · exact hclean pr h

open DbInit in
/-- Witness for C6 with concrete accounts and the empty initial state. -/
theorem C6_privilege_invariant_witness :
    (ensureUser "appuser" "pw1" "proj_db_dev" true ++
      ensureUser "readonly" "pw2" "proj_db_dev" false =
      [SqlStmt.createUserIfNotExists "appuser" "pw1",
       SqlStmt.alterUserPassword "appuser" "pw1",
       SqlStmt.grantAllOn "proj_db_dev" "appuser",
       SqlStmt.revokeDropOn "proj_db_dev" "appuser", SqlStmt.flushPrivileges,
       SqlStmt.createUserIfNotExists "readonly" "pw2",
       SqlStmt.alterUserPassword "readonly" "pw2",
       SqlStmt.grantSelectOn "proj_db_dev" "readonly", SqlStmt.flushPrivileges]) ∧
    (∃ a, getAccount (runStmts []
        (ensureUser "appuser" "pw1" "proj_db_dev" true ++
         ensureUser "readonly" "pw2" "proj_db_dev" false)) "appuser" = some a ∧
      Privilege.drop ∉ a.privileges ∧
      ∀ pr ∈ allPrivileges, pr ≠ Privilege.drop → pr ∈ a.privileges) ∧
    (∃ a, getAccount (runStmts []
        (ensureUser "appuser" "pw1" "proj_db_dev" true ++
         ensureUser "readonly" "pw2" "proj_db_dev" false)) "readonly" = some a ∧
      Privilege.select ∈ a.privileges ∧
      ∀ pr ∈ a.privileges, pr = Privilege.select) := by
  have h := C6_privilege_invariant "appuser" "pw1" "readonly" "pw2" "proj_db_dev" (by decide)
  exact ⟨h.1, h.2.1 [], h.2.2.1 [] (by simp [privsOf, getAccount])⟩

open DbInit in
/-- C5: on `Delete` the DB bootstrap performs no database action and
returns the supplied PhysicalResourceId unchanged; when none is supplied
it returns the deterministic fallback identity — `DB_HOST:DB_NAME` when
both environment variables are set — and that fallback is never empty. -/
theorem C5_delete_identity (env : Env) (secrets : String → SecretJson)
    (connectOk : Bool) (pid : Option String) :
    (∀ s, pid = some s → s ≠ "" →
      handler env secrets connectOk ⟨some "Delete", pid⟩ = Except.ok (s, [])) ∧
    (pid = none →
      handler env secrets connectOk ⟨some "Delete", pid⟩ =
        Except.ok (fallbackId env, [])) ∧
    fallbackId env ≠ "" ∧
    (jsTruthyOptStr env.dbHost = true → jsTruthyOptStr env.dbName = true →
      fallbackId env = (env.dbHost.getD "") ++ ":" ++ (env.dbName.getD "")) := by
  refine ⟨?_, ?_, ?_, ?_⟩
  · intro s hs hne
    subst hs
    unfold handler
    simp [jsOrOptStr, jsOrStr, hne]
  · intro hnone
    subst hnone
    unfold handler
    simp [jsOrOptStr, jsOrStr]
  · unfold fallbackId
    split
    · rename_i hcond
      intro hcontra
      have hd := congrArg String.data hcontra
      rw [string_data_append, string_data_append] at hd
      simp at hd
    · simp
  · intro hh hn
    unfold fallbackId
    rw [if_pos ⟨hh, hn⟩]

open DbInit in
/-- Witness for C5 at a concrete environment, with and without a prior
PhysicalResourceId. -/
theorem C5_delete_identity_witness :
    handler ⟨some "db.example.com", some "3306", some "mydb", some "arn-m",
        some "arn-a", some "arn-r"⟩ (fun _ => ⟨none, none⟩) true
      ⟨some "Delete", some "prev-id"⟩ = Except.ok ("prev-id", []) ∧
    handler ⟨some "db.example.com", some "3306", some "mydb", some "arn-m",
        some "arn-a", some "arn-r"⟩ (fun _ => ⟨none, none⟩) true
      ⟨some "Delete", none⟩ = Except.ok ("db.example.com:mydb", []) ∧
    fallbackId ⟨some "db.example.com", some "3306", some "mydb", some "arn-m",
        some "arn-a", some "arn-r"⟩ ≠ "" := by
  have h1 := C5_delete_identity ⟨some "db.example.com", some "3306", some "mydb",
    some "arn-m", some "arn-a", some "arn-r"⟩ (fun _ => ⟨none, none⟩) true
    (some "prev-id")
  have h2 := C5_delete_identity ⟨some "db.example.com", some "3306", some "mydb",
    some "arn-m", some "arn-a", some "arn-r"⟩ (fun _ => ⟨none, none⟩) true none
  refine ⟨h1.1 "prev-id" rfl (by decide), ?_, h1.2.2.1⟩
  have hfb := h2.2.2.2 (by decide) (by decide)
  have := h2.2.1 rfl
  rw [hfb] at this
  exact this

theorem mem_collapseUnderscores : ∀ (b : Bool) (l : List Char) (c : Char),
    c ∈ collapseUnderscores b l → c ∈ l
  | _, [], _ => fun h => by simp [collapseUnderscores] at h
  | b, c0 :: rest, c => fun h => by
    by_cases h0 : c0 = '_'
    · subst h0
      simp only [collapseUnderscores, if_pos rfl] at h
      cases b with
      | true => exact List.mem_cons_of_mem _ (mem_collapseUnderscores true rest c h)
      | false =>
        rcases List.mem_cons.mp h with h1 | h1
        · exact h1 ▸ List.mem_cons_self _ _
        · exact List.mem_cons_of_mem _ (mem_collapseUnderscores true rest c h1)
    · simp only [collapseUnderscores, if_neg h0] at h
      rcases List.mem_cons.mp h with h1 | h1
      · exact h1 ▸ List.mem_cons_self _ _
      · exact List.mem_cons_of_mem _ (mem_collapseUnderscores false rest c h1)

theorem dropWhile_append_single (p : Char → Bool) (c : Char) (h : p c = false) :
    ∀ l : List Char, (l ++ [c]).dropWhile p = l.dropWhile p ++ [c]
  | [] => by simp [List.dropWhile, h]
  | a :: l => by
    by_cases ha : p a
    · simp [List.dropWhile, ha, dropWhile_append_single p c h l]
    · simp [List.dropWhile, ha]

theorem trimUnderscores_cons (c : Char) (t : List Char) (h : c ≠ '_') :
    trimUnderscores (c :: t) =
      c :: (t.reverse.dropWhile fun x => x = '_').reverse := by
  unfold trimUnderscores
  rw [List.dropWhile_cons_of_neg (by simp [h]), List.reverse_cons,
    dropWhile_append_single _ c (by simp [h]), List.reverse_append]
  rfl

theorem mem_trimUnderscores (l : List Char) (c : Char) (h : c ∈ trimUnderscores l) :
    c ∈ l := by
  unfold trimUnderscores at h
  rw [List.mem_reverse] at h
  have h1 := List.dropWhile_sublist (l := (l.dropWhile fun x => x = '_').reverse)
    (p := fun x => x = '_')
  have h2 := h1.mem h
  rw [List.mem_reverse] at h2
  exact (List.dropWhile_sublist _).mem h2

theorem dbNameListWellformed (cl : List Char)
    (hchars : ∀ c ∈ cl, isDbNameChar c = true) :
    (trimUnderscores (ensureLeadingLetter cl)).take 64 ≠ [] ∧
    ((trimUnderscores (ensureLeadingLetter cl)).take 64).length ≤ 64 ∧
    (∃ c rest, (trimUnderscores (ensureLeadingLetter cl)).take 64 = c :: rest ∧
      'a' ≤ c ∧ c ≤ 'z') ∧
    ∀ c ∈ (trimUnderscores (ensureLeadingLetter cl)).take 64, isDbNameChar c = true := by
  have hcharsL : ∀ c ∈ ensureLeadingLetter cl, isDbNameChar c = true := by
    unfold ensureLeadingLetter
    cases cl with
    | nil =>
      dsimp only
      intro c hc
      rcases List.mem_cons.mp hc with rfl | hc
      · decide
      rcases List.mem_cons.mp hc with rfl | hc
      · decide
      rcases List.mem_cons.mp hc with rfl | hc
      · decide
      · simp at hc
    | cons c0 t =>
      dsimp only
      split
      · exact hchars
      · intro c hc
        rcases List.mem_cons.mp hc with rfl | hc
        · decide
        rcases List.mem_cons.mp hc with rfl | hc
        · decide
        rcases List.mem_cons.mp hc with rfl | hc
        · decide
        · exact hchars c hc
  have hcharsOut : ∀ c ∈ (trimUnderscores (ensureLeadingLetter cl)).take 64,
      isDbNameChar c = true := fun c hc =>
    hcharsL c (mem_trimUnderscores _ _ ((List.take_sublist _ _).mem hc))
  have hhead : ∃ c rest, trimUnderscores (ensureLeadingLetter cl) = c :: rest ∧
      'a' ≤ c ∧ c ≤ 'z' := by
    unfold ensureLeadingLetter
    cases cl with
    | nil => exact ⟨'d', ['b'], by decide, by decide, by decide⟩
    | cons c0 t =>
      dsimp only
      by_cases hlet : ('a' ≤ c0 && c0 ≤ 'z') = true
      · rw [if_pos hlet, trimUnderscores_cons c0 t
          (fun he => absurd (he ▸ hlet) (by decide))]
        simp only [Bool.and_eq_true, decide_eq_true_eq] at hlet
        exact ⟨c0, _, rfl, hlet.1, hlet.2⟩
      · rw [if_neg hlet,
          show ('d' :: 'b' :: '_' :: c0 :: t) = 'd' :: ('b' :: '_' :: c0 :: t) from rfl,
          trimUnderscores_cons 'd' _ (by decide)]
        exact ⟨'d', _, rfl, by decide, by decide⟩
  obtain ⟨c0, rest, heq, hge, hle⟩ := hhead
  have htake : (c0 :: rest).take 64 = c0 :: rest.take 63 := rfl
  refine ⟨?_, List.length_take_le _ _, ⟨c0, rest.take 63, by rw [heq, htake], hge, hle⟩, hcharsOut⟩
  rw [heq, htake]
  simp

/-- C10: for every pair of input strings, `rdsDbName` returns a
non-empty name of at most 64 characters that begins with a lowercase
letter and contains only lowercase letters, digits and underscores. -/
theorem C10_rdsDbName_wellformed (project environment : String) :
    rdsDbName project environment ≠ "" ∧
    (rdsDbName project environment).length ≤ 64 ∧
    (∃ c rest, (rdsDbName project environment).data = c :: rest ∧ 'a' ≤ c ∧ c ≤ 'z') ∧
    ∀ c ∈ (rdsDbName project environment).data, isDbNameChar c = true := by
  have h := dbNameListWellformed (collapseUnderscores false
      (((project ++ "_db_" ++ environment).toList.map Char.toLower).map
        fun c => if isDbNameChar c then c else '_')) ?hc
  case hc =>
    intro c hc
    have hm := mem_collapseUnderscores _ _ _ hc
    rw [List.mem_map] at hm
    obtain ⟨c1, _, hc1⟩ := hm
    by_cases hdb : isDbNameChar c1 = true
    · rw [if_pos hdb] at hc1
      subst hc1
      exact hdb
    · rw [if_neg hdb] at hc1
      subst hc1
      decide
  obtain ⟨h1, h2, h3, h4⟩ := h
  refine ⟨?_, h2, h3, h4⟩
  intro he
  exact h1 (congrArg String.data he)

namespace LogsFirehoseTransform

theorem mem_enrichedMessages (c : Codec) (parsed : CloudWatchLogsFirehosePayload)
    (e : JsonObj) (he : e ∈ enrichedMessages c parsed) :
    ∃ ev structured, ev ∈ parsed.logEvents ∧
      c.parseJson (jsTrim ev.message) = some structured ∧
      e = enrich parsed ev (spreadFields structured) := by
  unfold enrichedMessages at he
  rw [List.mem_filterMap] at he
  obtain ⟨ev, hev, hf⟩ := he
  by_cases h0 : jsTrim ev.message = ""
  · rw [if_pos h0] at hf
    exact absurd hf (by simp)
  · rw [if_neg h0] at hf
    cases hp : c.parseJson (jsTrim ev.message) with
    | none => rw [hp] at hf; exact absurd hf (by simp)
    | some structured =>
      rw [hp] at hf
      dsimp only at hf
      by_cases h1 : jsTruthy structured
      · by_cases h2 : jsTypeofObject structured
        · rw [if_neg (by simp [h1]), if_neg (by simp [h2])] at hf
          exact ⟨ev, structured, hev, hp, (Option.some.inj hf).symm⟩
        · rw [if_neg (by simp [h1]), if_pos (by simp [h2])] at hf
          exact absurd hf (by simp)
      · rw [if_pos (by simp [h1])] at hf
        exact absurd hf (by simp)

end LogsFirehoseTransform

open LogsFirehoseTransform in
/-- C7: the claim that every enriched object keeps all fields of the
original parsed JSON object fails when the original already has a
`log_group` field: the enrichment spread overrides it with the source log
group, so the original value `"orig"` is gone from the output. -/
theorem C7_roundtrip_counterexample :
    processRecord
      ⟨fun s => if s = "payload8" then
          some ⟨"DATA_MESSAGE", "o", "grp", "strm", [],
            [⟨"e1", 0, "\x7b\"log_group\":\"orig\"\x7d"⟩]⟩
        else none,
       fun s => if s = "\x7b\"log_group\":\"orig\"\x7d" then
          some (Json.obj (JsonObj.cons "log_group" (Json.str "orig") JsonObj.nil))
        else none⟩
      ⟨"rid8", 0, "payload8"⟩ =
      [⟨"rid8", FirehoseRecordResult.ok, encodeRecords
        [JsonObj.cons "log_group" (Json.str "grp")
          (JsonObj.cons "log_stream" (Json.str "strm")
            (JsonObj.cons "ingestion_time_iso"
              (Json.str "1970-01-01T00:00:00.000Z") JsonObj.nil))]⟩] ∧
    lookupField
      (JsonObj.cons "log_group" (Json.str "grp")
        (JsonObj.cons "log_stream" (Json.str "strm")
          (JsonObj.cons "ingestion_time_iso"
            (Json.str "1970-01-01T00:00:00.000Z") JsonObj.nil))) "log_group" =
      some (Json.str "grp") ∧
    ("grp" : String) ≠ "orig" := by
  exact ⟨rfl, rfl, by decide⟩

open LogsFirehoseTransform in
/-- C7 (amended): for every record the transform marks `Ok`, the output
data is the base64 of the newline-terminated NDJSON serialisation of the
surviving enriched objects, and base64-decoding it returns exactly the
UTF-8 bytes of that text; every surviving object comes from a log event
whose trimmed message parsed, and carries `log_group`, `log_stream` and
`ingestion_time_iso` (the ISO-8601 rendering of the event's
epoch-millisecond timestamp) plus every field of the original parsed
object whose key is not one of those three derived keys (original fields
with one of the derived names are overridden). -/
theorem C7_roundtrip_amended (c : Codec)
    (r : FirehoseTransformationEventRecord)
    (parsed : CloudWatchLogsFirehosePayload)
    (h1 : c.decodePayload r.data = some parsed)
    (h2 : parsed.messageType = "DATA_MESSAGE")
    (h3 : enrichedMessages c parsed ≠ []) :
    processRecord c r = [⟨r.recordId, FirehoseRecordResult.ok,
      encodeRecords (enrichedMessages c parsed)⟩] ∧
    decodeB64 (encodeRecords (enrichedMessages c parsed)) =
      some (utf8Bytes (String.intercalate "\n"
        ((enrichedMessages c parsed).map fun v => Json.stringify (Json.obj v)) ++ "\n")) ∧
    ∀ e ∈ enrichedMessages c parsed, ∃ ev structured,
      ev ∈ parsed.logEvents ∧
      c.parseJson (jsTrim ev.message) = some structured ∧
      e = enrich parsed ev (spreadFields structured) ∧
      lookupField e "ingestion_time_iso" =
        some (Json.str (toISOString ev.timestamp)) ∧
      lookupField e "log_stream" = some (Json.str parsed.logStream) ∧
      lookupField e "log_group" = some (Json.str parsed.logGroup) ∧
      ∀ k, k ≠ "log_group" → k ≠ "log_stream" → k ≠ "ingestion_time_iso" →
        lookupField e k = lookupField (spreadFields structured) k := by
  refine ⟨?_, ?_, ?_⟩
  · unfold processRecord
    rw [h1]
    dsimp only
    rw [h2]
    simp only [ne_eq, not_true_eq_false, if_false]
    rw [if_neg (by simpa [List.isEmpty_iff] using h3)]
  · unfold encodeRecords
    exact decodeB64_utf8 _
  · intro e he
    obtain ⟨ev, structured, hev, hp, hee⟩ := mem_enrichedMessages c parsed e he
    subst hee
    refine ⟨ev, structured, hev, hp, rfl, ?_, ?_, ?_, ?_⟩
    · exact lookupField_setField_same _ _ _
    · unfold enrich
      rw [lookupField_setField_ne _ _ _ _ (by decide)]
      exact lookupField_setField_same _ _ _
    · unfold enrich
      rw [lookupField_setField_ne _ _ _ _ (by decide),
        lookupField_setField_ne _ _ _ _ (by decide)]
      exact lookupField_setField_same _ _ _
    · intro k hk1 hk2 hk3
      unfold enrich
      rw [lookupField_setField_ne _ _ _ _ hk3, lookupField_setField_ne _ _ _ _ hk2,
        lookupField_setField_ne _ _ _ _ hk1]

namespace LogsFirehoseTransform

/-- Concrete payload used to witness C7. -/
def c7SamplePayload : CloudWatchLogsFirehosePayload :=
  ⟨"DATA_MESSAGE", "o", "grp", "strm", [], [⟨"e1", 86400123, "\x7b\"a\":1\x7d"⟩]⟩

/-- Concrete codec used to witness C7. -/
def c7SampleCodec : Codec where
  decodePayload := fun s => if s = "payload7" then some c7SamplePayload else none
  parseJson := fun s =>
    if s = "\x7b\"a\":1\x7d" then
      some (Json.obj (JsonObj.cons "a" (Json.num 1) JsonObj.nil))
    else none

end LogsFirehoseTransform

open LogsFirehoseTransform in
/-- Witness for C7 (amended) at a concrete one-event record. -/
theorem C7_roundtrip_amended_witness :
    processRecord c7SampleCodec ⟨"rid7", 0, "payload7"⟩ =
      [⟨"rid7", FirehoseRecordResult.ok, encodeRecords
        [JsonObj.cons "a" (Json.num 1)
          (JsonObj.cons "log_group" (Json.str "grp")
            (JsonObj.cons "log_stream" (Json.str "strm")
              (JsonObj.cons "ingestion_time_iso"
                (Json.str (toISOString 86400123)) JsonObj.nil)))]⟩] ∧
    decodeB64 (encodeRecords (enrichedMessages c7SampleCodec c7SamplePayload)) =
      some (utf8Bytes (String.intercalate "\n"
        ((enrichedMessages c7SampleCodec c7SamplePayload).map
          fun v => Json.stringify (Json.obj v)) ++ "\n")) ∧
    lookupField
      (JsonObj.cons "a" (Json.num 1)
        (JsonObj.cons "log_group" (Json.str "grp")
          (JsonObj.cons "log_stream" (Json.str "strm")
            (JsonObj.cons "ingestion_time_iso"
              (Json.str (toISOString 86400123)) JsonObj.nil)))) "log_group" =
      some (Json.str "grp") ∧
    lookupField
      (JsonObj.cons "a" (Json.num 1)
        (JsonObj.cons "log_group" (Json.str "grp")
          (JsonObj.cons "log_stream" (Json.str "strm")
            (JsonObj.cons "ingestion_time_iso"
              (Json.str (toISOString 86400123)) JsonObj.nil)))) "a" =
      some (Json.num 1) := by
  have h := C7_roundtrip_amended c7SampleCodec ⟨"rid7", 0, "payload7"⟩ c7SamplePayload
    rfl rfl (fun hcontra => absurd (congrArg List.length hcontra) (by decide))
  exact ⟨h.1, h.2.1, rfl, rfl⟩
